import Mathlib

/-
Verification of the AutoQuizVideo timeline, playback and export engine.

The definitions below are a shallow embedding of the quiz video player
(src/unnamed/part_001) and the difficulty distribution helper
(src/unnamed/part_000).  Times and durations are modelled as rationals,
in milliseconds unless stated otherwise; decoded audio buffers are
modelled by their duration in seconds, matching AudioBuffer.duration.
-/

namespace AutoQuizVideo

/-- One entry of the timeline, mirroring the SlideTiming interface of the
player (src/unnamed/part_001, lines 22 to 29).  All fields are milliseconds on
one shared axis starting at 0 for the first slide.  The source field named end
is written end_ here because end is a reserved word of Lean. -/
structure SlideTiming where
  start : ℚ
  questionAudioDuration : ℚ
  thinkingStart : ℚ
  revealStart : ℚ
  answerAudioDuration : ℚ
  end_ : ℚ
  deriving DecidableEq, Repr

/-- Decoded narration state of one slide as produced by prepareAssets.  For
each of the two utterances, some d means the raw PCM decoded into a buffer of
duration d seconds (AudioBuffer.duration); none means the audio was absent or
decodePCM failed (src/unnamed/part_001, lines 141 to 177). -/
structure SlideAudio where
  questionAudio : Option ℚ
  answerAudio : Option ℚ
  deriving DecidableEq, Repr

/-- The per slide question narration duration in milliseconds used by the
timing loop: buffer.duration times 1000 when a buffer decoded, otherwise the
initial fallback value 3000 (src/unnamed/part_001, lines 160 to 169). -/
def qDurMs (s : SlideAudio) : ℚ :=
  match s.questionAudio with
  | none => 3000
  | some d => d * 1000

/-- The per slide answer narration duration in milliseconds: fallback 2000
when no buffer decoded (src/unnamed/part_001, lines 161 and 171 to 177). -/
def aDurMs (s : SlideAudio) : ℚ :=
  match s.answerAudio with
  | none => 2000
  | some d => d * 1000

/-- The timing loop of prepareAssets (src/unnamed/part_001, lines 156 to 192),
generalised over the running value of accumulatedTime.  timerDuration is the
thinking time in seconds, as in the source. -/
def buildTimingsFrom (timerDuration : ℚ) : ℚ → List SlideAudio → List SlideTiming
  | _, [] => []
  | accumulatedTime, slide :: rest =>
    let qDur := qDurMs slide
    let aDur := aDurMs slide
    let thinkingDurMs := timerDuration * 1000
    let revealDurMs := max 2000 (aDur + 1000)
    { start := accumulatedTime,
      questionAudioDuration := qDur,
      thinkingStart := accumulatedTime + qDur + 500,
      revealStart := accumulatedTime + qDur + 500 + thinkingDurMs,
      answerAudioDuration := aDur,
      end_ := accumulatedTime + qDur + 500 + thinkingDurMs + revealDurMs } ::
    buildTimingsFrom timerDuration
      (accumulatedTime + (qDur + 500 + thinkingDurMs + revealDurMs)) rest

/-- The timings array computed by prepareAssets, starting from
accumulatedTime = 0 (src/unnamed/part_001, line 139). -/
def buildTimings (slides : List SlideAudio) (timerDuration : ℚ) : List SlideTiming :=
  buildTimingsFrom timerDuration 0 slides

/-- The amount added to accumulatedTime for one slide
(src/unnamed/part_001, line 191). -/
def slideSpan (timerDuration : ℚ) (slide : SlideAudio) : ℚ :=
  qDurMs slide + 500 + timerDuration * 1000 + max 2000 (aDurMs slide + 1000)

/-- The final value of accumulatedTime, committed as totalDuration
(src/unnamed/part_001, line 196). -/
def totalDuration (slides : List SlideAudio) (timerDuration : ℚ) : ℚ :=
  slides.foldl (fun acc slide => acc + slideSpan timerDuration slide) 0

theorem buildTimingsFrom_length (timerDuration : ℚ) :
    ∀ (acc : ℚ) (l : List SlideAudio),
      (buildTimingsFrom timerDuration acc l).length = l.length := by
  intro acc l
  induction l generalizing acc with
  | nil => rfl
  | cons s rest ih => simp [buildTimingsFrom, ih]

theorem buildTimings_length (slides : List SlideAudio) (timerDuration : ℚ) :
    (buildTimings slides timerDuration).length = slides.length :=
  buildTimingsFrom_length timerDuration 0 slides

/-- Per index characterisation of the relations between the fields of an entry
of the generalised timing loop. -/
theorem buildTimingsFrom_get?_spec (timerDuration : ℚ) :
    ∀ (l : List SlideAudio) (acc : ℚ) (i : ℕ) (sl : SlideAudio) (tm : SlideTiming),
      l.get? i = some sl →
      (buildTimingsFrom timerDuration acc l).get? i = some tm →
      tm.thinkingStart - tm.start = qDurMs sl + 500 ∧
      tm.revealStart - tm.thinkingStart = timerDuration * 1000 ∧
      tm.end_ - tm.revealStart = max 2000 (aDurMs sl + 1000) ∧
      tm.questionAudioDuration = qDurMs sl ∧
      tm.answerAudioDuration = aDurMs sl := by
  intro l
  induction l with
  | nil => intro acc i sl tm h; simp at h
  | cons s rest ih =>
    intro acc i sl tm hs ht
    cases i with
    | zero =>
      simp only [List.get?] at hs ht
      cases hs; cases ht
      refine ⟨by ring, by ring, by ring, rfl, rfl⟩
    | succ n =>
      simp only [List.get?] at hs ht
      exact ih _ n sl tm hs ht

/-- The first entry of a nonempty generalised timing list starts at the
accumulator value. -/
theorem buildTimingsFrom_head_start (timerDuration : ℚ) (acc : ℚ)
    (l : List SlideAudio) (tm : SlideTiming)
    (h : (buildTimingsFrom timerDuration acc l).get? 0 = some tm) :
    tm.start = acc := by
  cases l with
  | nil => simp [buildTimingsFrom] at h
  | cons s rest =>
    simp only [buildTimingsFrom, List.get?] at h
    cases h
    rfl

/-- Adjacent entries of the generalised timing list are contiguous. -/
theorem buildTimingsFrom_contiguous (timerDuration : ℚ) :
    ∀ (l : List SlideAudio) (acc : ℚ) (i : ℕ) (tm tm' : SlideTiming),
      (buildTimingsFrom timerDuration acc l).get? i = some tm →
      (buildTimingsFrom timerDuration acc l).get? (i + 1) = some tm' →
      tm.end_ = tm'.start := by
  intro l
  induction l with
  | nil => intro acc i tm tm' h; simp [buildTimingsFrom] at h
  | cons s rest ih =>
    intro acc i tm tm' h h'
    cases i with
    | zero =>
      simp only [buildTimingsFrom, List.get?] at h h'
      cases h
      have := buildTimingsFrom_head_start timerDuration _ rest tm' h'
      rw [this]
      ring
    | succ n =>
      simp only [buildTimingsFrom, List.get?] at h h'
      exact ih _ n tm tm' h h'

/-- The last entry of a nonempty generalised timing list ends at the folded
accumulator. -/
theorem buildTimingsFrom_getLast_end (timerDuration : ℚ) :
    ∀ (l : List SlideAudio) (acc : ℚ), l ≠ [] →
      ∃ tm, (buildTimingsFrom timerDuration acc l).getLast? = some tm ∧
        tm.end_ = l.foldl (fun a s => a + slideSpan timerDuration s) acc := by
  intro l
  induction l with
  | nil => intro acc h; exact absurd rfl h
  | cons s rest ih =>
    intro acc _
    cases rest with
    | nil =>
      refine ⟨_, rfl, ?_⟩
      simp only [List.foldl_cons, List.foldl_nil, slideSpan]
      show acc + qDurMs s + 500 + timerDuration * 1000 + max 2000 (aDurMs s + 1000) = _
      ring
    | cons s2 rest2 =>
      obtain ⟨tm, htm, hend⟩ := ih (acc + (qDurMs s + 500 + timerDuration * 1000 +
        max 2000 (aDurMs s + 1000))) (by simp)
      obtain ⟨y, ys, hys⟩ : ∃ y ys, buildTimingsFrom timerDuration
          (acc + (qDurMs s + 500 + timerDuration * 1000 + max 2000 (aDurMs s + 1000)))
          (s2 :: rest2) = y :: ys := ⟨_, _, rfl⟩
      refine ⟨tm, ?_, ?_⟩
      · rw [show buildTimingsFrom timerDuration acc (s :: s2 :: rest2) =
            { start := acc, questionAudioDuration := qDurMs s,
              thinkingStart := acc + qDurMs s + 500,
              revealStart := acc + qDurMs s + 500 + timerDuration * 1000,
              answerAudioDuration := aDurMs s,
              end_ := acc + qDurMs s + 500 + timerDuration * 1000 +
                max 2000 (aDurMs s + 1000) } ::
            buildTimingsFrom timerDuration (acc + (qDurMs s + 500 + timerDuration * 1000 +
              max 2000 (aDurMs s + 1000))) (s2 :: rest2) from rfl, hys,
          List.getLast?_cons_cons, ← hys, htm]
      · rw [List.foldl_cons]
        simpa [slideSpan] using hend

/-- Claim C1: for every built timeline and every slide index, the phase
lengths are exactly the question narration duration plus the 500 ms pause,
the thinking time in milliseconds, and max 2000 (answer duration + 1000),
where the durations fall back to 3000 ms and 2000 ms when the corresponding
audio is absent or failed to decode. -/
theorem c1_phase_lengths (slides : List SlideAudio) (timerDuration : ℚ) (i : ℕ)
    (sl : SlideAudio) (tm : SlideTiming)
    (hs : slides.get? i = some sl)
    (ht : (buildTimings slides timerDuration).get? i = some tm) :
    tm.thinkingStart - tm.start = qDurMs sl + 500 ∧
    tm.revealStart - tm.thinkingStart = timerDuration * 1000 ∧
    tm.end_ - tm.revealStart = max 2000 (aDurMs sl + 1000) := by
  have h := buildTimingsFrom_get?_spec timerDuration slides 0 i sl tm hs ht
  exact ⟨h.1, h.2.1, h.2.2.1⟩

/-- Witness for C1 at a concrete slide: question 4 s, answer 1.5 s,
thinking time 5 s. -/
theorem c1_phase_lengths_witness :
    ([⟨some 4, some (3 / 2)⟩] : List SlideAudio).get? 0 = some ⟨some 4, some (3 / 2)⟩ ∧
    (buildTimings [⟨some 4, some (3 / 2)⟩] 5).get? 0 =
      some ⟨0, 4000, 4500, 9500, 1500, 12000⟩ ∧
    ((⟨0, 4000, 4500, 9500, 1500, 12000⟩ : SlideTiming).thinkingStart -
        (⟨0, 4000, 4500, 9500, 1500, 12000⟩ : SlideTiming).start =
      qDurMs ⟨some 4, some (3 / 2)⟩ + 500 ∧
      (⟨0, 4000, 4500, 9500, 1500, 12000⟩ : SlideTiming).revealStart -
        (⟨0, 4000, 4500, 9500, 1500, 12000⟩ : SlideTiming).thinkingStart = 5 * 1000 ∧
      (⟨0, 4000, 4500, 9500, 1500, 12000⟩ : SlideTiming).end_ -
        (⟨0, 4000, 4500, 9500, 1500, 12000⟩ : SlideTiming).revealStart =
        max 2000 (aDurMs ⟨some 4, some (3 / 2)⟩ + 1000)) :=
  ⟨rfl, by norm_num [buildTimings, buildTimingsFrom, qDurMs, aDurMs, List.get?],
    c1_phase_lengths [⟨some 4, some (3 / 2)⟩] 5 0 ⟨some 4, some (3 / 2)⟩
      ⟨0, 4000, 4500, 9500, 1500, 12000⟩ rfl
      (by norm_num [buildTimings, buildTimingsFrom, qDurMs, aDurMs, List.get?])⟩

/-- Claim C2: every built timeline with at least one slide starts at 0, has
contiguous adjacent entries, orders the phase boundaries of every entry, and
reports the end of the last entry as totalDuration.  The hypotheses record
that decoded durations are nonnegative and that the configured thinking time
is nonnegative, which always holds for real decoded audio. -/
theorem c2_timeline_invariants (slides : List SlideAudio) (timerDuration : ℚ)
    (hne : slides ≠ [])
    (hd : ∀ sl ∈ slides, 0 ≤ qDurMs sl ∧ 0 ≤ aDurMs sl)
    (htd : 0 ≤ timerDuration) :
    (∃ tm0, (buildTimings slides timerDuration).get? 0 = some tm0 ∧ tm0.start = 0) ∧
    (∀ (i : ℕ) (tm tm' : SlideTiming),
      (buildTimings slides timerDuration).get? i = some tm →
      (buildTimings slides timerDuration).get? (i + 1) = some tm' →
      tm.end_ = tm'.start) ∧
    (∀ (i : ℕ) (tm : SlideTiming),
      (buildTimings slides timerDuration).get? i = some tm →
      tm.start ≤ tm.thinkingStart ∧ tm.thinkingStart ≤ tm.revealStart ∧
        tm.revealStart ≤ tm.end_) ∧
    (∃ tmL, (buildTimings slides timerDuration).getLast? = some tmL ∧
      tmL.end_ = totalDuration slides timerDuration) := by
  refine ⟨?_, ?_, ?_, ?_⟩
  · cases slides with
    | nil => exact absurd rfl hne
    | cons s rest =>
      refine ⟨_, rfl, ?_⟩
      exact buildTimingsFrom_head_start timerDuration 0 (s :: rest) _ rfl
  · intro i tm tm' h h'
    exact buildTimingsFrom_contiguous timerDuration slides 0 i tm tm' h h'
  · intro i tm h
    have hlen : i < slides.length := by
      by_contra hlt
      push_neg at hlt
      have : (buildTimings slides timerDuration).get? i = none := by
        rw [List.get?_eq_none]
        rw [buildTimings_length]
        exact hlt
      rw [this] at h
      exact Option.noConfusion h
    obtain ⟨sl, hsl⟩ : ∃ sl, slides.get? i = some sl := by
      cases hg : slides.get? i with
      | none =>
        rw [List.get?_eq_none] at hg
        omega
      | some sl => exact ⟨sl, rfl⟩
    have hmem : sl ∈ slides := List.get?_mem hsl
    have hq : 0 ≤ qDurMs sl := (hd sl hmem).1
    have ha : 0 ≤ aDurMs sl := (hd sl hmem).2
    have hspec := buildTimingsFrom_get?_spec timerDuration slides 0 i sl tm hsl h
    refine ⟨?_, ?_, ?_⟩
    · nlinarith [hspec.1]
    · nlinarith [hspec.2.1]
    · have : (2000 : ℚ) ≤ max 2000 (aDurMs sl + 1000) := le_max_left _ _
      nlinarith [hspec.2.2.1]
  · obtain ⟨tmL, htmL, hend⟩ := buildTimingsFrom_getLast_end timerDuration slides 0 hne
    refine ⟨tmL, htmL, ?_⟩
    rw [hend]
    rfl

/-- Witness for C2 on a two slide timeline. -/
theorem c2_timeline_invariants_witness :
    (([⟨some 4, some (3 / 2)⟩, ⟨none, none⟩] : List SlideAudio) ≠ [] ∧
      (∀ sl ∈ ([⟨some 4, some (3 / 2)⟩, ⟨none, none⟩] : List SlideAudio),
        0 ≤ qDurMs sl ∧ 0 ≤ aDurMs sl) ∧
      (0 : ℚ) ≤ 5) ∧
    ((∃ tm0, (buildTimings [⟨some 4, some (3 / 2)⟩, ⟨none, none⟩] 5).get? 0 = some tm0 ∧
        tm0.start = 0) ∧
      (∀ (i : ℕ) (tm tm' : SlideTiming),
        (buildTimings [⟨some 4, some (3 / 2)⟩, ⟨none, none⟩] 5).get? i = some tm →
        (buildTimings [⟨some 4, some (3 / 2)⟩, ⟨none, none⟩] 5).get? (i + 1) = some tm' →
        tm.end_ = tm'.start) ∧
      (∀ (i : ℕ) (tm : SlideTiming),
        (buildTimings [⟨some 4, some (3 / 2)⟩, ⟨none, none⟩] 5).get? i = some tm →
        tm.start ≤ tm.thinkingStart ∧ tm.thinkingStart ≤ tm.revealStart ∧
          tm.revealStart ≤ tm.end_) ∧
      (∃ tmL, (buildTimings [⟨some 4, some (3 / 2)⟩, ⟨none, none⟩] 5).getLast? = some tmL ∧
        tmL.end_ = totalDuration [⟨some 4, some (3 / 2)⟩, ⟨none, none⟩] 5)) :=
  ⟨⟨by simp, by intro sl hsl; fin_cases hsl <;> norm_num [qDurMs, aDurMs], by norm_num⟩,
    c2_timeline_invariants [⟨some 4, some (3 / 2)⟩, ⟨none, none⟩] 5
      (by simp) (by intro sl hsl; fin_cases hsl <;> norm_num [qDurMs, aDurMs]) (by norm_num)⟩

/-- Claim C3: the concrete three slide scenario.  Question narrations of
4000, 3000 and 5000 ms, answer narrations of 1500, 0 and 3000 ms, thinking
time 5000 ms (timerDuration 5 s): the built timeline and total duration are
exactly the values of the claim. -/
theorem c3_scenario :
    buildTimings [⟨some 4, some (3 / 2)⟩, ⟨some 3, some 0⟩, ⟨some 5, some 3⟩] 5 =
      [⟨0, 4000, 4500, 9500, 1500, 12000⟩,
       ⟨12000, 3000, 15500, 20500, 0, 22500⟩,
       ⟨22500, 5000, 28000, 33000, 3000, 37000⟩] ∧
    totalDuration [⟨some 4, some (3 / 2)⟩, ⟨some 3, some 0⟩, ⟨some 5, some 3⟩] 5 = 37000 := by
  constructor
  · norm_num [buildTimings, buildTimingsFrom, qDurMs, aDurMs, max_def]
  · norm_num [totalDuration, slideSpan, qDurMs, aDurMs, max_def, List.foldl]

/-- The rounding used by the source through Math.round: round half toward
positive infinity, which on the rationals is the floor of x + 1/2. -/
def jsRound (x : ℚ) : ℤ := ⌊x + 1 / 2⌋

/-- Result record of getCounts (src/unnamed/part_000, lines 41 to 50). -/
structure DifficultyCounts where
  easy : ℤ
  medium : ℤ
  hard : ℤ
  deriving DecidableEq, Repr

/-- The difficulty distribution computation getCounts
(src/unnamed/part_000, lines 41 to 50): percentages are turned into question
counts by rounding, with the hard bucket taking the remainder, clamped at
zero. -/
def getCounts (diffEasy diffMedium diffHard : ℚ) (questionCount : ℤ) : DifficultyCounts :=
  let totalPct := diffEasy + diffMedium + diffHard
  if totalPct = 0 then ⟨0, 0, 0⟩
  else
    let e := jsRound (diffEasy / totalPct * (questionCount : ℚ))
    let m := jsRound (diffMedium / totalPct * (questionCount : ℚ))
    let h := questionCount - e - m
    ⟨e, m, if h < 0 then 0 else h⟩

/-- Claim C9: for every percentage triple with positive sum and every
question count, getCounts returns round(easy / total * count),
round(medium / total * count), and the remaining count clamped below at
zero, so that all rounding error is absorbed into the hard bucket, which is
never negative. -/
theorem c9_getCounts (diffEasy diffMedium diffHard : ℚ) (questionCount : ℤ)
    (hpos : 0 < diffEasy + diffMedium + diffHard) :
    getCounts diffEasy diffMedium diffHard questionCount =
      ⟨jsRound (diffEasy / (diffEasy + diffMedium + diffHard) * (questionCount : ℚ)),
        jsRound (diffMedium / (diffEasy + diffMedium + diffHard) * (questionCount : ℚ)),
        max 0 (questionCount -
          jsRound (diffEasy / (diffEasy + diffMedium + diffHard) * (questionCount : ℚ)) -
          jsRound (diffMedium / (diffEasy + diffMedium + diffHard) * (questionCount : ℚ)))⟩ ∧
    0 ≤ (getCounts diffEasy diffMedium diffHard questionCount).hard := by
  have hne : diffEasy + diffMedium + diffHard ≠ 0 := ne_of_gt hpos
  unfold getCounts
  rw [if_neg hne]
  constructor
  · refine congrArg (DifficultyCounts.mk _ _) ?_
    split <;> omega
  · simp only [DifficultyCounts.hard]
    split <;> omega

/-- Witness for C9 at the default configuration: 33, 33, 34 percent over
5 questions. -/
theorem c9_getCounts_witness :
    ((0 : ℚ) < 33 + 33 + 34) ∧
    (getCounts 33 33 34 5 =
      ⟨jsRound ((33 : ℚ) / (33 + 33 + 34) * ((5 : ℤ) : ℚ)),
        jsRound ((33 : ℚ) / (33 + 33 + 34) * ((5 : ℤ) : ℚ)),
        max 0 (5 - jsRound ((33 : ℚ) / (33 + 33 + 34) * ((5 : ℤ) : ℚ)) -
          jsRound ((33 : ℚ) / (33 + 33 + 34) * ((5 : ℤ) : ℚ)))⟩ ∧
      0 ≤ (getCounts 33 33 34 5).hard) :=
  ⟨by norm_num, c9_getCounts 33 33 34 5 (by norm_num)⟩

/-- Identity of a narration track: slide index and utterance kind, as held in
currentAudioTrackRef (src/unnamed/part_001, line 75). -/
inductive TrackType
  | question
  | answer
  deriving DecidableEq, Repr

/-- The state attribute of a MediaRecorder as observed by the player. -/
inductive RecorderState
  | inactive
  | recording
  deriving DecidableEq, Repr

/-- Control state of the player component: the playing flag, the recording
flag, the MediaRecorder reference, the sounding track marker, and a count of
files finalized by the onstop handler of the recorder
(src/unnamed/part_001, lines 42 to 75 and 898 to 944). -/
structure ControlState where
  isPlaying : Bool
  isRecording : Bool
  mediaRecorder : Option RecorderState
  currentAudioTrack : Option (ℕ × TrackType)
  downloads : ℕ
  deriving DecidableEq, Repr

/-- togglePlay (src/unnamed/part_001, lines 869 to 884): when not playing it
starts playback and clears the sounding track marker; when playing it stops
playback, stops the audio nodes and clears the marker. -/
def togglePlay (s : ControlState) : ControlState :=
  if s.isPlaying = false then
    { s with isPlaying := true, currentAudioTrack := none }
  else
    { s with isPlaying := false, currentAudioTrack := none }

/-- stopRecording (src/unnamed/part_001, lines 939 to 944): when the recorder
exists and is not inactive, it stops the recorder - whose onstop handler
finalizes the captured chunks into a downloadable file and clears the
recording flag - and then calls togglePlay. -/
def stopRecording (s : ControlState) : ControlState :=
  match s.mediaRecorder with
  | some r =>
    if r ≠ RecorderState.inactive then
      togglePlay { s with mediaRecorder := some RecorderState.inactive,
                          isRecording := false, downloads := s.downloads + 1 }
    else s
  | none => s

/-- Claim C7 counterexample: invoking export stop while a recording is active
but the player is not playing (for example after the playhead reached
totalDuration during an export) leaves the player Playing, because
stopRecording calls togglePlay rather than an unconditional pause. -/
theorem c7_counterexample :
    (stopRecording ⟨false, true, some RecorderState.recording, none, 0⟩).isPlaying = true ∧
    (stopRecording ⟨false, true, some RecorderState.recording, none, 0⟩).mediaRecorder =
      some RecorderState.inactive := by
  constructor <;> rfl

/-- Claim C7, amended: stopping an in-progress export finalizes the captured
chunks into a downloadable file, and for every playback state in which export
stop is invoked while a recording is active AND the player is playing,
afterwards the recorder is stopped and the player is in the Stopped state. -/
theorem c7_amended (s : ControlState)
    (hrec : s.mediaRecorder = some RecorderState.recording)
    (hplay : s.isPlaying = true) :
    (stopRecording s).mediaRecorder = some RecorderState.inactive ∧
    (stopRecording s).isPlaying = false ∧
    (stopRecording s).isRecording = false ∧
    (stopRecording s).downloads = s.downloads + 1 := by
  unfold stopRecording
  rw [hrec]
  simp only [ne_eq, reduceCtorEq, not_false_eq_true, if_true, togglePlay]
  rw [if_neg (by simp [hplay])]
  exact ⟨rfl, rfl, rfl, rfl⟩

/-- Witness for the amended C7 at a concrete playing, recording state. -/
theorem c7_amended_witness :
    ((⟨true, true, some RecorderState.recording, some (0, TrackType.question), 2⟩ :
        ControlState).mediaRecorder = some RecorderState.recording ∧
      (⟨true, true, some RecorderState.recording, some (0, TrackType.question), 2⟩ :
        ControlState).isPlaying = true) ∧
    ((stopRecording ⟨true, true, some RecorderState.recording,
        some (0, TrackType.question), 2⟩).mediaRecorder = some RecorderState.inactive ∧
      (stopRecording ⟨true, true, some RecorderState.recording,
        some (0, TrackType.question), 2⟩).isPlaying = false ∧
      (stopRecording ⟨true, true, some RecorderState.recording,
        some (0, TrackType.question), 2⟩).isRecording = false ∧
      (stopRecording ⟨true, true, some RecorderState.recording,
        some (0, TrackType.question), 2⟩).downloads =
        (⟨true, true, some RecorderState.recording, some (0, TrackType.question), 2⟩ :
          ControlState).downloads + 1) :=
  ⟨⟨rfl, rfl⟩,
    c7_amended ⟨true, true, some RecorderState.recording, some (0, TrackType.question), 2⟩
      rfl rfl⟩

/-- One slide as consumed by the prepareAssets effect.  backgroundImage is
some true when the Image load succeeds, some false when onerror fires, none
when the slide carries no image; the audio fields are as in SlideAudio. -/
structure PreloadSlide where
  id : ℕ
  backgroundImage : Option Bool
  questionAudio : Option ℚ
  answerAudio : Option ℚ
  deriving DecidableEq, Repr

/-- Projection to the audio component used by the timing loop. -/
def toSlideAudio (s : PreloadSlide) : SlideAudio :=
  ⟨s.questionAudio, s.answerAudio⟩

/-- Inputs of one prepareAssets run.  For the two optional audio files,
some (some d) means the file is present and decodeAudioData resolves with a
buffer of duration d, some none means the file is present but decoding
throws, none means no file. -/
structure PreloadInput where
  slides : List PreloadSlide
  bgMusicFile : Option (Option ℚ)
  countdownSfxFile : Option (Option ℚ)
  timerDuration : ℚ
  deriving DecidableEq, Repr

/-- The shared state written by prepareAssets: the image map (ids of slides
whose image committed), the decoded narration buffer maps, the two decoded
file buffers, the timings array, totalDuration, and the ready flag
(src/unnamed/part_001, lines 49 to 76). -/
structure CacheState where
  images : List ℕ
  questionBuffers : List (ℕ × ℚ)
  answerBuffers : List (ℕ × ℚ)
  bgMusicBuffer : Option ℚ
  countdownSfxBuffer : Option ℚ
  timings : List SlideTiming
  totalDuration : ℚ
  isReady : Bool
  deriving DecidableEq, Repr

/-- The state before any commit of a preload run. -/
def initialCache : CacheState := ⟨[], [], [], none, none, [], 0, false⟩

/-- Ids of the slides whose image load succeeds. -/
def loadedImages (slides : List PreloadSlide) : List ℕ :=
  (slides.filter (fun s => s.backgroundImage = some true)).map (fun s => s.id)

/-- The question buffer map committed by the decode loop: one entry per slide
index whose question PCM decodes. -/
def decodedQuestionBuffers (slides : List PreloadSlide) : List (ℕ × ℚ) :=
  slides.enum.filterMap (fun p => p.2.questionAudio.map (fun d => (p.1, d)))

/-- The answer buffer map committed by the decode loop. -/
def decodedAnswerBuffers (slides : List PreloadSlide) : List (ℕ × ℚ) :=
  slides.enum.filterMap (fun p => p.2.answerAudio.map (fun d => (p.1, d)))

/-- The prepareAssets effect (src/unnamed/part_001, lines 79 to 207) as a
function of the observable cancellation schedule.  The body suspends at the
file decodes, at the image loads, and nowhere inside the synchronous decode
loop, so the cancelled flag is observed at two places: by each image onload
guard (line 129, parameter cancelledAtImages) and by the loop and the final
commit (lines 157 and 194, parameter cancelledAtLoop).  The background music
and countdown sfx decode results (lines 104 and 114 to 119) are committed
with no cancellation check at all. -/
def runPreload (inp : PreloadInput) (cancelledAtImages cancelledAtLoop : Bool) :
    CacheState :=
  let st1 := { initialCache with bgMusicBuffer := inp.bgMusicFile.join }
  let st2 := { st1 with countdownSfxBuffer := inp.countdownSfxFile.join }
  let st3 := if cancelledAtImages then st2
    else { st2 with images := loadedImages inp.slides }
  if cancelledAtLoop then st3
  else
    { st3 with
      questionBuffers := decodedQuestionBuffers inp.slides,
      answerBuffers := decodedAnswerBuffers inp.slides,
      timings := buildTimings (inp.slides.map toSlideAudio) inp.timerDuration,
      totalDuration := totalDuration (inp.slides.map toSlideAudio) inp.timerDuration,
      isReady := true }

/-- Claim C6 counterexample: a preload cancelled from the very start (every
cancellation checkpoint observes cancelled = true) still commits the decoded
background music buffer into shared state, because the decodeAudioData result
is stored without consulting the cancellation flag. -/
theorem c6_counterexample :
    (runPreload ⟨[], some (some 30), none, 5⟩ true true).bgMusicBuffer = some 30 ∧
    (runPreload ⟨[], some (some 30), none, 5⟩ true true).bgMusicBuffer ≠
      initialCache.bgMusicBuffer := by
  constructor
  · rfl
  · intro h
    exact Option.noConfusion h

/-- Claim C6, amended: a cancelled preload never commits decoded results that
arrive after cancellation into the image map, the question and answer buffer
maps, the timings array, totalDuration or the ready flag; however the
background music and countdown sfx buffers are NOT protected, as their decode
results are committed without a cancellation check. -/
theorem c6_amended (inp : PreloadInput) (cancelledAtImages cancelledAtLoop : Bool) :
    (cancelledAtImages = true →
      (runPreload inp cancelledAtImages cancelledAtLoop).images = initialCache.images) ∧
    (cancelledAtLoop = true →
      (runPreload inp cancelledAtImages cancelledAtLoop).questionBuffers =
          initialCache.questionBuffers ∧
        (runPreload inp cancelledAtImages cancelledAtLoop).answerBuffers =
          initialCache.answerBuffers ∧
        (runPreload inp cancelledAtImages cancelledAtLoop).timings =
          initialCache.timings ∧
        (runPreload inp cancelledAtImages cancelledAtLoop).totalDuration =
          initialCache.totalDuration ∧
        (runPreload inp cancelledAtImages cancelledAtLoop).isReady =
          initialCache.isReady) := by
  constructor
  · intro hImg
    subst hImg
    unfold runPreload
    cases cancelledAtLoop <;> rfl
  · intro hLoop
    subst hLoop
    unfold runPreload
    cases cancelledAtImages <;> exact ⟨rfl, rfl, rfl, rfl, rfl⟩

/-- Witness for the amended C6: a cancelled preload of one slide with image
and narration commits none of the protected state. -/
theorem c6_amended_witness :
    (runPreload ⟨[⟨7, some true, some 4, some 2⟩], some (some 30), some (some 1), 5⟩
        true true).images = [] ∧
    (runPreload ⟨[⟨7, some true, some 4, some 2⟩], some (some 30), some (some 1), 5⟩
        true true).questionBuffers = [] ∧
    (runPreload ⟨[⟨7, some true, some 4, some 2⟩], some (some 30), some (some 1), 5⟩
        true true).timings = [] ∧
    (runPreload ⟨[⟨7, some true, some 4, some 2⟩], some (some 30), some (some 1), 5⟩
        true true).isReady = false := by
  have h := c6_amended ⟨[⟨7, some true, some 4, some 2⟩], some (some 30), some (some 1), 5⟩
    true true
  exact ⟨h.1 rfl, (h.2 rfl).1, (h.2 rfl).2.2.1, (h.2 rfl).2.2.2.2⟩

/-- State of the audio graph as far as narration is concerned: a counter
handing out fresh source node identities, the identities of the voice source
nodes that were started and not yet stopped, the node currently held by
voiceNodeRef, and the sounding track marker currentAudioTrackRef
(src/unnamed/part_001, lines 57 and 75). -/
structure AudioState where
  nextId : ℕ
  liveVoices : List ℕ
  voiceNode : Option ℕ
  currentAudioTrack : Option (ℕ × TrackType)
  deriving DecidableEq, Repr

/-- The guarded stop of the node held by voiceNodeRef
(src/unnamed/part_001, lines 242 to 244): stopping marks the node no longer
sounding; the reference itself is not cleared. -/
def stopVoice (a : AudioState) : AudioState :=
  match a.voiceNode with
  | none => a
  | some id => { a with liveVoices := a.liveVoices.erase id }

/-- Lookup of the decoded buffer for a track, as done through
questionBuffersRef and answerBuffersRef (src/unnamed/part_001, lines 238,
239): the value is the buffer duration in seconds. -/
def bufferDuration (slides : List SlideAudio) (slideIndex : ℕ) (ty : TrackType) :
    Option ℚ :=
  match ty with
  | TrackType.question => (slides.get? slideIndex).bind (fun s => s.questionAudio)
  | TrackType.answer => (slides.get? slideIndex).bind (fun s => s.answerAudio)

/-- playVoiceTrack (src/unnamed/part_001, lines 235 to 260).  When the buffer
is absent the function returns at once.  Otherwise it stops the node held by
voiceNodeRef, and if the offset in seconds is below the buffer duration it
starts a fresh source at that offset, records it in voiceNodeRef and sets the
sounding track marker.  The Bool reports whether a start call was issued. -/
def playVoiceTrack (slides : List SlideAudio) (a : AudioState) (slideIndex : ℕ)
    (ty : TrackType) (offsetMs : ℚ) : AudioState × Bool :=
  match bufferDuration slides slideIndex ty with
  | none => (a, false)
  | some dur =>
    let a1 := stopVoice a
    if offsetMs / 1000 < dur then
      ({ nextId := a1.nextId + 1,
         liveVoices := a1.nextId :: a1.liveVoices,
         voiceNode := some a1.nextId,
         currentAudioTrack := some (slideIndex, ty) }, true)
    else (a1, false)

/-- The three phases a playhead can be in within one slide. -/
inductive Phase
  | reading
  | thinking
  | revealing
  deriving DecidableEq, Repr

/-- The linear scan both renderFrame (lines 758 to 763) and animate (lines
821 to 827) perform to locate the slide whose start and end bracket the
playhead, generalised over the starting index. -/
def findActiveFrom (t : ℚ) : ℕ → List SlideTiming → Option (ℕ × SlideTiming)
  | _, [] => none
  | i, tm :: rest =>
    if tm.start ≤ t ∧ t < tm.end_ then some (i, tm) else findActiveFrom t (i + 1) rest

/-- The active slide search starting at index 0. -/
def findActive (timings : List SlideTiming) (t : ℚ) : Option (ℕ × SlideTiming) :=
  findActiveFrom t 0 timings

/-- The slide index and phase the playhead t lies in, using the branch
conditions of animate (src/unnamed/part_001, lines 830 to 832). -/
def phaseAt (timings : List SlideTiming) (t : ℚ) : Option (ℕ × Phase) :=
  match findActive timings t with
  | none => none
  | some (i, tm) =>
    if t < tm.thinkingStart then some (i, Phase.reading)
    else if t < tm.revealStart then some (i, Phase.thinking)
    else some (i, Phase.revealing)

/-- Mutable playback state of the player loop: currentTime, the playing
flag, the audio graph state, and lastTickTimeRef
(src/unnamed/part_001, lines 42 to 76). -/
structure EngineState where
  time : ℚ
  isPlaying : Bool
  audio : AudioState
  lastTick : ℤ
  deriving DecidableEq, Repr

/-- Result of one animate invocation: the new state, whether a source start
call was issued, and whether playVoiceTrack was invoked at all. -/
structure TickResult where
  state : EngineState
  started : Bool
  attempted : Bool
  deriving DecidableEq, Repr

/-- The animate callback (src/unnamed/part_001, lines 803 to 851), restricted
to the state it reads and writes: when playing it advances currentTime by the
frame delta, stops at totalDuration, finds the active slide and, in the
Reading and Revealing phases, calls playVoiceTrack when the sounding track
marker differs from the track the phase requires; entering Reading with a
differing marker also resets lastTickTimeRef to -1. -/
def animateTick (slides : List SlideAudio) (timings : List SlideTiming)
    (totalDur : ℚ) (s : EngineState) (delta : ℚ) : TickResult :=
  if s.isPlaying = true then
    let next := s.time + delta
    if totalDur ≤ next then
      ⟨{ s with time := totalDur, isPlaying := false }, false, false⟩
    else
      match findActive timings next with
      | none => ⟨{ s with time := next }, false, false⟩
      | some (i, timing) =>
        if next < timing.thinkingStart then
          if s.audio.currentAudioTrack ≠ some (i, TrackType.question) then
            let r := playVoiceTrack slides s.audio i TrackType.question (next - timing.start)
            ⟨{ s with time := next, audio := r.1, lastTick := -1 }, r.2, true⟩
          else ⟨{ s with time := next }, false, false⟩
        else if next < timing.revealStart then
          ⟨{ s with time := next }, false, false⟩
        else
          if s.audio.currentAudioTrack ≠ some (i, TrackType.answer) then
            let r := playVoiceTrack slides s.audio i TrackType.answer
              (next - timing.revealStart)
            ⟨{ s with time := next, audio := r.1 }, r.2, true⟩
          else ⟨{ s with time := next }, false, false⟩
  else ⟨s, false, false⟩

/-- The audio cues playTickSound can be asked to emit
(src/unnamed/part_001, line 262). -/
inductive Cue
  | tick
  | endCue
  deriving DecidableEq, Repr

/-- One drawSlideState layout invocation: which slide is drawn, at which
slide local time, at which global alpha. -/
structure DrawOp where
  slideIndex : ℕ
  localTime : ℚ
  alpha : ℚ
  deriving DecidableEq, Repr

/-- The 500 ms cross fade constant (src/unnamed/part_001, line 20). -/
def TRANSITION_DURATION : ℚ := 500

/-- The cross fade opacity of the incoming slide
(src/unnamed/part_001, line 782). -/
def transitionAlpha (localTime : ℚ) : ℚ := localTime / TRANSITION_DURATION

/-- The cue bookkeeping at the top of drawSlideState
(src/unnamed/part_001, lines 726 to 738): the tick cue fires while playing
and thinking whenever the integer seconds left differ from
lastTickTimeRef, which is then updated; the end cue fires once the slide is
revealed and lastTickTimeRef is not the sentinel -99, which is then set.
Returns the new lastTickTimeRef value and the cues emitted. -/
def tickCueStep (timerDuration : ℚ) (isPlaying : Bool) (timing : SlideTiming)
    (localTime : ℚ) (lastTick : ℤ) : ℤ × List Cue :=
  let thinkingElapsed := localTime - (timing.thinkingStart - timing.start)
  let timeLeft : ℤ := max 0 ⌈timerDuration - thinkingElapsed / 1000⌉
  if isPlaying = true ∧
      (timing.thinkingStart - timing.start ≤ localTime ∧
        localTime < timing.revealStart - timing.start) ∧
      (timeLeft : ℚ) ≤ timerDuration ∧ 0 < timeLeft ∧ timeLeft ≠ lastTick then
    (timeLeft, [Cue.tick])
  else (lastTick, ([] : List Cue))

/-- The end cue conditional of drawSlideState (src/unnamed/part_001, lines
735 to 738), applied to the lastTick value and cues of the tick step. -/
def endCueStep (isPlaying : Bool) (timing : SlideTiming) (localTime : ℚ)
    (p : ℤ × List Cue) : ℤ × List Cue :=
  if timing.revealStart - timing.start ≤ localTime ∧ p.1 ≠ -99 then
    (-99, p.2 ++ if isPlaying = true then [Cue.endCue] else [])
  else p

def drawSlideCues (timerDuration : ℚ) (isPlaying : Bool) (timing : SlideTiming)
    (localTime : ℚ) (lastTick : ℤ) : ℤ × List Cue :=
  endCueStep isPlaying timing localTime
    (tickCueStep timerDuration isPlaying timing localTime lastTick)

/-- drawSlideState (src/unnamed/part_001, lines 721 to 745): returns early
when the slide or its timing entry is missing, otherwise runs the cue
bookkeeping and draws the slide with the given alpha. -/
def drawSlideStateCues (slides : List SlideAudio) (timings : List SlideTiming)
    (timerDuration : ℚ) (isPlaying : Bool) (slideIndex : ℕ) (localTime : ℚ)
    (alpha : ℚ) (lastTick : ℤ) : ℤ × List Cue × List DrawOp :=
  match slides.get? slideIndex, timings.get? slideIndex with
  | some _, some timing =>
    let r := drawSlideCues timerDuration isPlaying timing localTime lastTick
    (r.1, r.2, [⟨slideIndex, localTime, alpha⟩])
  | _, _ => (lastTick, [], [])

/-- renderFrame (src/unnamed/part_001, lines 747 to 799): with a nonempty
timings array it locates the active slide; during the first
TRANSITION_DURATION of a non first slide it draws the previous slide at
alpha 1 and the active slide on top at alpha localTime / TRANSITION_DURATION,
otherwise it draws the active slide at alpha 1.  Past the last slide nothing
is drawn.  Returns the new lastTickTimeRef, the cues and the draws. -/
def renderFrame (slides : List SlideAudio) (timings : List SlideTiming)
    (timerDuration : ℚ) (isPlaying : Bool) (time : ℚ) (lastTick : ℤ) :
    ℤ × List Cue × List DrawOp :=
  if timings = [] then (lastTick, [], [])
  else
    match findActive timings time with
    | none => (lastTick, [], [])
    | some (i, timing) =>
      let localTime := time - timing.start
      if localTime < TRANSITION_DURATION ∧ 0 < i then
        match timings.get? (i - 1) with
        | some prevTiming =>
          let prev := drawSlideStateCues slides timings timerDuration isPlaying (i - 1)
            (time - prevTiming.start) 1 lastTick
          let act := drawSlideStateCues slides timings timerDuration isPlaying i
            localTime (transitionAlpha localTime) prev.1
          (act.1, prev.2.1 ++ act.2.1, prev.2.2 ++ act.2.2)
        | none =>
          drawSlideStateCues slides timings timerDuration isPlaying i localTime
            (transitionAlpha localTime) lastTick
      else
        drawSlideStateCues slides timings timerDuration isPlaying i localTime 1 lastTick

/-- Result of one full frame: animate followed by the render effect. -/
structure FrameResult where
  state : EngineState
  started : Bool
  attempted : Bool
  cues : List Cue
  draws : List DrawOp
  deriving DecidableEq, Repr

/-- One frame of the loop: the animate callback advances the state, then the
effect on currentTime re-renders at the new time, updating
lastTickTimeRef and possibly emitting cues
(src/unnamed/part_001, lines 803 to 865). -/
def frameStep (slides : List SlideAudio) (timings : List SlideTiming)
    (totalDur timerDuration : ℚ) (s : EngineState) (delta : ℚ) : FrameResult :=
  let tr := animateTick slides timings totalDur s delta
  let r := renderFrame slides timings timerDuration tr.state.isPlaying tr.state.time
    tr.state.lastTick
  ⟨{ tr.state with lastTick := r.1 }, tr.started, tr.attempted, r.2.1, r.2.2⟩

/-- Accumulated observation of a run of frames. -/
structure RunResult where
  state : EngineState
  startCount : ℕ
  attemptCount : ℕ
  cues : List Cue
  deriving DecidableEq, Repr

/-- Run the frame loop over a list of frame deltas, accumulating the number
of source start calls, the number of playVoiceTrack invocations and the cues
emitted. -/
def runFrames (slides : List SlideAudio) (timings : List SlideTiming)
    (totalDur timerDuration : ℚ) : EngineState → List ℚ → RunResult
  | s, [] => ⟨s, 0, 0, []⟩
  | s, delta :: rest =>
    let fr := frameStep slides timings totalDur timerDuration s delta
    let r := runFrames slides timings totalDur timerDuration fr.state rest
    ⟨r.state, (if fr.started then 1 else 0) + r.startCount,
      (if fr.attempted then 1 else 0) + r.attemptCount, fr.cues ++ r.cues⟩

/-- Whether every frame of the run keeps the playhead strictly below
totalDuration and inside the same slide and phase. -/
def samePhaseRun (slides : List SlideAudio) (timings : List SlideTiming)
    (totalDur timerDuration : ℚ) : EngineState → List ℚ → ℕ → Phase → Bool
  | _, [], _, _ => true
  | s, delta :: rest, i, ph =>
    decide (s.time + delta < totalDur) &&
    decide (phaseAt timings (s.time + delta) = some (i, ph)) &&
    samePhaseRun slides timings totalDur timerDuration
      (frameStep slides timings totalDur timerDuration s delta).state rest i ph

/-- Invariant of the audio graph state: at most one voice source is live, any
live source is the one held by voiceNodeRef, and identities are below the
fresh counter. -/
def AudioInv (a : AudioState) : Prop :=
  a.liveVoices.length ≤ 1 ∧
  ∀ id ∈ a.liveVoices, a.voiceNode = some id ∧ id < a.nextId

/-- The track a phase requires, per the guards of animate. -/
def requiredTrack : Phase → Option TrackType
  | Phase.reading => some TrackType.question
  | Phase.thinking => none
  | Phase.revealing => some TrackType.answer

theorem findActiveFrom_spec (t : ℚ) :
    ∀ (l : List SlideTiming) (j i : ℕ) (tm : SlideTiming),
      findActiveFrom t j l = some (i, tm) →
      j ≤ i ∧ i - j < l.length ∧ l.get? (i - j) = some tm ∧
        tm.start ≤ t ∧ t < tm.end_ := by
  intro l
  induction l with
  | nil => intro j i tm h; simp [findActiveFrom] at h
  | cons x rest ih =>
    intro j i tm h
    unfold findActiveFrom at h
    split at h
    · rename_i hcond
      cases h
      refine ⟨le_refl j, by simp, by simp, hcond.1, hcond.2⟩
    · obtain ⟨hle, hlt, hget, hs, he⟩ := ih (j + 1) i tm h
      refine ⟨by omega, by simp; omega, ?_, hs, he⟩
      have hij : i - j = (i - (j + 1)) + 1 := by omega
      rw [hij]
      simpa using hget

theorem findActive_spec (timings : List SlideTiming) (t : ℚ) (i : ℕ)
    (tm : SlideTiming) (h : findActive timings t = some (i, tm)) :
    i < timings.length ∧ timings.get? i = some tm ∧ tm.start ≤ t ∧ t < tm.end_ := by
  obtain ⟨_, hlt, hget, hs, he⟩ := findActiveFrom_spec t timings 0 i tm h
  refine ⟨by simpa using hlt, by simpa using hget, hs, he⟩

theorem phaseAt_reading (timings : List SlideTiming) (t : ℚ) (i : ℕ)
    (h : phaseAt timings t = some (i, Phase.reading)) :
    ∃ tm, findActive timings t = some (i, tm) ∧ t < tm.thinkingStart := by
  unfold phaseAt at h
  cases hfa : findActive timings t with
  | none => rw [hfa] at h; exact Option.noConfusion h
  | some p =>
    obtain ⟨j, tm⟩ := p
    rw [hfa] at h
    simp only at h
    split at h
    · cases h; exact ⟨tm, rfl, by assumption⟩
    · split at h
      · cases h
      · cases h

theorem phaseAt_thinking (timings : List SlideTiming) (t : ℚ) (i : ℕ)
    (h : phaseAt timings t = some (i, Phase.thinking)) :
    ∃ tm, findActive timings t = some (i, tm) ∧ ¬ t < tm.thinkingStart ∧
      t < tm.revealStart := by
  unfold phaseAt at h
  cases hfa : findActive timings t with
  | none => rw [hfa] at h; exact Option.noConfusion h
  | some p =>
    obtain ⟨j, tm⟩ := p
    rw [hfa] at h
    simp only at h
    split at h
    · cases h
    · split at h
      · cases h
        exact ⟨tm, rfl, by assumption, by assumption⟩
      · cases h

theorem phaseAt_revealing (timings : List SlideTiming) (t : ℚ) (i : ℕ)
    (h : phaseAt timings t = some (i, Phase.revealing)) :
    ∃ tm, findActive timings t = some (i, tm) ∧ ¬ t < tm.thinkingStart ∧
      ¬ t < tm.revealStart := by
  unfold phaseAt at h
  cases hfa : findActive timings t with
  | none => rw [hfa] at h; exact Option.noConfusion h
  | some p =>
    obtain ⟨j, tm⟩ := p
    rw [hfa] at h
    simp only at h
    split at h
    · cases h
    · split at h
      · cases h
      · cases h
        exact ⟨tm, rfl, by assumption, by assumption⟩

theorem stopVoice_nextId (a : AudioState) : (stopVoice a).nextId = a.nextId := by
  unfold stopVoice; split <;> rfl

theorem stopVoice_voiceNode (a : AudioState) : (stopVoice a).voiceNode = a.voiceNode := by
  unfold stopVoice; split <;> rfl

theorem stopVoice_currentAudioTrack (a : AudioState) :
    (stopVoice a).currentAudioTrack = a.currentAudioTrack := by
  unfold stopVoice; split <;> rfl

theorem stopVoice_live_of_inv (a : AudioState) (h : AudioInv a) :
    (stopVoice a).liveVoices = [] := by
  obtain ⟨hlen, hmem⟩ := h
  unfold stopVoice
  cases hl : a.liveVoices with
  | nil =>
    split
    · exact hl
    · simp [hl]
  | cons v rest =>
    cases rest with
    | nil =>
      have hv := hmem v (by rw [hl]; exact List.mem_singleton_self v)
      split
      · rename_i hnode
        rw [hv.1] at hnode
        exact Option.noConfusion hnode
      · rename_i id hnode
        rw [hv.1] at hnode
        cases hnode
        simp [hl, List.erase_cons]
    | cons w rest2 => rw [hl] at hlen; simp at hlen

theorem playVoiceTrack_none (slides : List SlideAudio) (a : AudioState)
    (slideIndex : ℕ) (ty : TrackType) (offsetMs : ℚ)
    (h : bufferDuration slides slideIndex ty = none) :
    playVoiceTrack slides a slideIndex ty offsetMs = (a, false) := by
  unfold playVoiceTrack
  rw [h]

theorem playVoiceTrack_started_marker (slides : List SlideAudio) (a : AudioState)
    (slideIndex : ℕ) (ty : TrackType) (offsetMs : ℚ) (a' : AudioState)
    (h : playVoiceTrack slides a slideIndex ty offsetMs = (a', true)) :
    a'.currentAudioTrack = some (slideIndex, ty) := by
  unfold playVoiceTrack at h
  split at h
  · cases h
  · split at h
    · cases h; rfl
    · cases h

theorem playVoiceTrack_started_live (slides : List SlideAudio) (a : AudioState)
    (slideIndex : ℕ) (ty : TrackType) (offsetMs : ℚ) (a' : AudioState)
    (hinv : AudioInv a)
    (h : playVoiceTrack slides a slideIndex ty offsetMs = (a', true)) :
    a'.liveVoices = [a.nextId] ∧ (∀ id ∈ a.liveVoices, id ∉ a'.liveVoices) ∧
      AudioInv a' := by
  unfold playVoiceTrack at h
  split at h
  · cases h
  · split at h
    · cases h
      have hl := stopVoice_live_of_inv a hinv
      have hn := stopVoice_nextId a
      constructor
      · simp [hl, hn]
      constructor
      · intro id hid
        have := (hinv.2 id hid).2
        simp [hl, hn]
        omega
      · refine ⟨by simp [hl], ?_⟩
        intro id hid
        simp [hl, hn] at hid
        subst hid
        simp [hl, hn]
    · cases h

theorem playVoiceTrack_not_started (slides : List SlideAudio) (a : AudioState)
    (slideIndex : ℕ) (ty : TrackType) (offsetMs : ℚ) (a' : AudioState)
    (h : playVoiceTrack slides a slideIndex ty offsetMs = (a', false)) :
    a'.currentAudioTrack = a.currentAudioTrack ∧ (AudioInv a → AudioInv a') := by
  unfold playVoiceTrack at h
  split at h
  · cases h
    exact ⟨rfl, fun hi => hi⟩
  · split at h
    · cases h
    · cases h
      refine ⟨stopVoice_currentAudioTrack a, fun hi => ?_⟩
      rw [AudioInv, stopVoice_live_of_inv a hi]
      exact ⟨by simp, by simp⟩

theorem playVoiceTrack_inv (slides : List SlideAudio) (a : AudioState)
    (slideIndex : ℕ) (ty : TrackType) (offsetMs : ℚ) (hinv : AudioInv a) :
    AudioInv (playVoiceTrack slides a slideIndex ty offsetMs).1 := by
  cases hp : playVoiceTrack slides a slideIndex ty offsetMs with
  | mk a' b =>
    cases b with
    | true => exact (playVoiceTrack_started_live slides a slideIndex ty offsetMs a' hinv hp).2.2
    | false => exact (playVoiceTrack_not_started slides a slideIndex ty offsetMs a' hp).2 hinv

theorem frameStep_state_audio (slides : List SlideAudio) (timings : List SlideTiming)
    (totalDur timerDuration : ℚ) (s : EngineState) (delta : ℚ) :
    (frameStep slides timings totalDur timerDuration s delta).state.audio =
      (animateTick slides timings totalDur s delta).state.audio := rfl

theorem frameStep_state_time (slides : List SlideAudio) (timings : List SlideTiming)
    (totalDur timerDuration : ℚ) (s : EngineState) (delta : ℚ) :
    (frameStep slides timings totalDur timerDuration s delta).state.time =
      (animateTick slides timings totalDur s delta).state.time := rfl

theorem frameStep_state_isPlaying (slides : List SlideAudio) (timings : List SlideTiming)
    (totalDur timerDuration : ℚ) (s : EngineState) (delta : ℚ) :
    (frameStep slides timings totalDur timerDuration s delta).state.isPlaying =
      (animateTick slides timings totalDur s delta).state.isPlaying := rfl

theorem frameStep_started (slides : List SlideAudio) (timings : List SlideTiming)
    (totalDur timerDuration : ℚ) (s : EngineState) (delta : ℚ) :
    (frameStep slides timings totalDur timerDuration s delta).started =
      (animateTick slides timings totalDur s delta).started := rfl

theorem frameStep_attempted (slides : List SlideAudio) (timings : List SlideTiming)
    (totalDur timerDuration : ℚ) (s : EngineState) (delta : ℚ) :
    (frameStep slides timings totalDur timerDuration s delta).attempted =
      (animateTick slides timings totalDur s delta).attempted := rfl

/-- The animate callback preserves the audio graph invariant. -/
theorem animateTick_inv (slides : List SlideAudio) (timings : List SlideTiming)
    (totalDur : ℚ) (s : EngineState) (delta : ℚ) (hinv : AudioInv s.audio) :
    AudioInv (animateTick slides timings totalDur s delta).state.audio := by
  unfold animateTick
  split
  · dsimp only
    split
    · exact hinv
    · split
      · exact hinv
      · split
        · split
          · exact playVoiceTrack_inv slides s.audio _ _ _ hinv
          · exact hinv
        · split
          · exact hinv
          · split
            · exact playVoiceTrack_inv slides s.audio _ _ _ hinv
            · exact hinv
  · exact hinv

theorem playVoiceTrack_snd_false_marker (slides : List SlideAudio) (a : AudioState)
    (slideIndex : ℕ) (ty : TrackType) (offsetMs : ℚ)
    (h : (playVoiceTrack slides a slideIndex ty offsetMs).2 = false) :
    (playVoiceTrack slides a slideIndex ty offsetMs).1.currentAudioTrack =
      a.currentAudioTrack := by
  cases hr : playVoiceTrack slides a slideIndex ty offsetMs with
  | mk a' b =>
    cases b with
    | true => rw [hr] at h; simp at h
    | false => exact (playVoiceTrack_not_started slides a slideIndex ty offsetMs a' hr).1

/-- When no start call is issued, the sounding track marker is unchanged. -/
theorem animateTick_not_started_marker (slides : List SlideAudio)
    (timings : List SlideTiming) (totalDur : ℚ) (s : EngineState) (delta : ℚ)
    (h : (animateTick slides timings totalDur s delta).started = false) :
    (animateTick slides timings totalDur s delta).state.audio.currentAudioTrack =
      s.audio.currentAudioTrack := by
  revert h
  unfold animateTick
  split
  · dsimp only
    split
    · intro _; rfl
    · split
      · intro _; rfl
      · split
        · split
          · intro h
            exact playVoiceTrack_snd_false_marker _ _ _ _ _ h
          · intro _; rfl
        · split
          · intro _; rfl
          · split
            · intro h
              exact playVoiceTrack_snd_false_marker _ _ _ _ _ h
            · intro _; rfl
  · intro _; rfl

/-- While the playhead stays below totalDuration, a playing engine keeps
playing and its clock advances by the frame delta. -/
theorem animateTick_playing (slides : List SlideAudio) (timings : List SlideTiming)
    (totalDur : ℚ) (s : EngineState) (delta : ℚ) (hp : s.isPlaying = true)
    (hlt : s.time + delta < totalDur) :
    (animateTick slides timings totalDur s delta).state.isPlaying = true ∧
    (animateTick slides timings totalDur s delta).state.time = s.time + delta := by
  have hnle : ¬ totalDur ≤ s.time + delta := not_le.mpr hlt
  unfold animateTick
  rw [if_pos hp]
  simp only
  rw [if_neg hnle]
  split
  · exact ⟨hp, rfl⟩
  · split
    · split
      · exact ⟨hp, rfl⟩
      · exact ⟨hp, rfl⟩
    · split
      · exact ⟨hp, rfl⟩
      · split
        · exact ⟨hp, rfl⟩
        · exact ⟨hp, rfl⟩

theorem animateTick_reading_skip (slides : List SlideAudio)
    (timings : List SlideTiming) (totalDur : ℚ) (s : EngineState) (delta : ℚ)
    (i : ℕ) (tm : SlideTiming) (hp : s.isPlaying = true)
    (hlt : s.time + delta < totalDur)
    (hfa : findActive timings (s.time + delta) = some (i, tm))
    (hrd : s.time + delta < tm.thinkingStart)
    (hmark : s.audio.currentAudioTrack = some (i, TrackType.question)) :
    animateTick slides timings totalDur s delta =
      ⟨{ s with time := s.time + delta }, false, false⟩ := by
  have hnle : ¬ totalDur ≤ s.time + delta := not_le.mpr hlt
  unfold animateTick
  rw [if_pos hp]
  simp only [hfa]
  rw [if_neg hnle, if_pos hrd, if_neg (by simp [hmark])]

theorem animateTick_reading_attempt (slides : List SlideAudio)
    (timings : List SlideTiming) (totalDur : ℚ) (s : EngineState) (delta : ℚ)
    (i : ℕ) (tm : SlideTiming) (hp : s.isPlaying = true)
    (hlt : s.time + delta < totalDur)
    (hfa : findActive timings (s.time + delta) = some (i, tm))
    (hrd : s.time + delta < tm.thinkingStart)
    (hmark : s.audio.currentAudioTrack ≠ some (i, TrackType.question)) :
    animateTick slides timings totalDur s delta =
      ⟨⟨s.time + delta, s.isPlaying,
          (playVoiceTrack slides s.audio i TrackType.question
            (s.time + delta - tm.start)).1, -1⟩,
        (playVoiceTrack slides s.audio i TrackType.question
          (s.time + delta - tm.start)).2, true⟩ := by
  have hnle : ¬ totalDur ≤ s.time + delta := not_le.mpr hlt
  unfold animateTick
  rw [if_pos hp]
  simp only [hfa]
  rw [if_neg hnle, if_pos hrd, if_pos hmark]

theorem animateTick_thinking_skip (slides : List SlideAudio)
    (timings : List SlideTiming) (totalDur : ℚ) (s : EngineState) (delta : ℚ)
    (i : ℕ) (tm : SlideTiming) (hp : s.isPlaying = true)
    (hlt : s.time + delta < totalDur)
    (hfa : findActive timings (s.time + delta) = some (i, tm))
    (hth1 : ¬ s.time + delta < tm.thinkingStart)
    (hth2 : s.time + delta < tm.revealStart) :
    animateTick slides timings totalDur s delta =
      ⟨{ s with time := s.time + delta }, false, false⟩ := by
  have hnle : ¬ totalDur ≤ s.time + delta := not_le.mpr hlt
  unfold animateTick
  rw [if_pos hp]
  simp only [hfa]
  rw [if_neg hnle, if_neg hth1, if_pos hth2]

theorem animateTick_revealing_skip (slides : List SlideAudio)
    (timings : List SlideTiming) (totalDur : ℚ) (s : EngineState) (delta : ℚ)
    (i : ℕ) (tm : SlideTiming) (hp : s.isPlaying = true)
    (hlt : s.time + delta < totalDur)
    (hfa : findActive timings (s.time + delta) = some (i, tm))
    (hrv1 : ¬ s.time + delta < tm.thinkingStart)
    (hrv2 : ¬ s.time + delta < tm.revealStart)
    (hmark : s.audio.currentAudioTrack = some (i, TrackType.answer)) :
    animateTick slides timings totalDur s delta =
      ⟨{ s with time := s.time + delta }, false, false⟩ := by
  have hnle : ¬ totalDur ≤ s.time + delta := not_le.mpr hlt
  unfold animateTick
  rw [if_pos hp]
  simp only [hfa]
  rw [if_neg hnle, if_neg hrv1, if_neg hrv2, if_neg (by simp [hmark])]

theorem animateTick_revealing_attempt (slides : List SlideAudio)
    (timings : List SlideTiming) (totalDur : ℚ) (s : EngineState) (delta : ℚ)
    (i : ℕ) (tm : SlideTiming) (hp : s.isPlaying = true)
    (hlt : s.time + delta < totalDur)
    (hfa : findActive timings (s.time + delta) = some (i, tm))
    (hrv1 : ¬ s.time + delta < tm.thinkingStart)
    (hrv2 : ¬ s.time + delta < tm.revealStart)
    (hmark : s.audio.currentAudioTrack ≠ some (i, TrackType.answer)) :
    animateTick slides timings totalDur s delta =
      ⟨⟨s.time + delta, s.isPlaying,
          (playVoiceTrack slides s.audio i TrackType.answer
            (s.time + delta - tm.revealStart)).1, s.lastTick⟩,
        (playVoiceTrack slides s.audio i TrackType.answer
          (s.time + delta - tm.revealStart)).2, true⟩ := by
  have hnle : ¬ totalDur ≤ s.time + delta := not_le.mpr hlt
  unfold animateTick
  rw [if_pos hp]
  simp only [hfa]
  rw [if_neg hnle, if_neg hrv1, if_neg hrv2, if_pos hmark]

theorem playVoiceTrack_snd_true_marker (slides : List SlideAudio) (a : AudioState)
    (slideIndex : ℕ) (ty : TrackType) (offsetMs : ℚ)
    (h : (playVoiceTrack slides a slideIndex ty offsetMs).2 = true) :
    (playVoiceTrack slides a slideIndex ty offsetMs).1.currentAudioTrack =
      some (slideIndex, ty) := by
  cases hr : playVoiceTrack slides a slideIndex ty offsetMs with
  | mk a' b =>
    cases b with
    | false => rw [hr] at h; simp at h
    | true => exact playVoiceTrack_started_marker slides a slideIndex ty offsetMs a' hr

theorem runFrames_cons_state (slides : List SlideAudio) (timings : List SlideTiming)
    (totalDur timerDuration : ℚ) (s : EngineState) (d : ℚ) (rest : List ℚ) :
    (runFrames slides timings totalDur timerDuration s (d :: rest)).state =
      (runFrames slides timings totalDur timerDuration
        (frameStep slides timings totalDur timerDuration s d).state rest).state := rfl

theorem runFrames_cons_startCount (slides : List SlideAudio)
    (timings : List SlideTiming) (totalDur timerDuration : ℚ) (s : EngineState)
    (d : ℚ) (rest : List ℚ) :
    (runFrames slides timings totalDur timerDuration s (d :: rest)).startCount =
      (if (frameStep slides timings totalDur timerDuration s d).started then 1 else 0) +
      (runFrames slides timings totalDur timerDuration
        (frameStep slides timings totalDur timerDuration s d).state rest).startCount := rfl

theorem runFrames_cons_attemptCount (slides : List SlideAudio)
    (timings : List SlideTiming) (totalDur timerDuration : ℚ) (s : EngineState)
    (d : ℚ) (rest : List ℚ) :
    (runFrames slides timings totalDur timerDuration s (d :: rest)).attemptCount =
      (if (frameStep slides timings totalDur timerDuration s d).attempted then 1 else 0) +
      (runFrames slides timings totalDur timerDuration
        (frameStep slides timings totalDur timerDuration s d).state rest).attemptCount := rfl

theorem runFrames_cons_cues (slides : List SlideAudio) (timings : List SlideTiming)
    (totalDur timerDuration : ℚ) (s : EngineState) (d : ℚ) (rest : List ℚ) :
    (runFrames slides timings totalDur timerDuration s (d :: rest)).cues =
      (frameStep slides timings totalDur timerDuration s d).cues ++
      (runFrames slides timings totalDur timerDuration
        (frameStep slides timings totalDur timerDuration s d).state rest).cues := rfl

theorem samePhaseRun_cons (slides : List SlideAudio) (timings : List SlideTiming)
    (totalDur timerDuration : ℚ) (s : EngineState) (d : ℚ) (rest : List ℚ)
    (i : ℕ) (ph : Phase) :
    samePhaseRun slides timings totalDur timerDuration s (d :: rest) i ph = true ↔
      (s.time + d < totalDur ∧ phaseAt timings (s.time + d) = some (i, ph)) ∧
      samePhaseRun slides timings totalDur timerDuration
        (frameStep slides timings totalDur timerDuration s d).state rest i ph = true := by
  simp [samePhaseRun, Bool.and_eq_true, and_assoc]

/-- The audio graph invariant is preserved along any run of frames. -/
theorem runFrames_inv (slides : List SlideAudio) (timings : List SlideTiming)
    (totalDur timerDuration : ℚ) :
    ∀ (deltas : List ℚ) (s : EngineState), AudioInv s.audio →
      AudioInv (runFrames slides timings totalDur timerDuration s deltas).state.audio := by
  intro deltas
  induction deltas with
  | nil => intro s h; exact h
  | cons d rest ih =>
    intro s h
    rw [runFrames_cons_state]
    refine ih _ ?_
    rw [frameStep_state_audio]
    exact animateTick_inv slides timings totalDur s d h

/-- Once the marker names the track the phase requires, no further start call
is issued while the run stays in that slide and phase. -/
theorem run_startCount_zero (slides : List SlideAudio) (timings : List SlideTiming)
    (totalDur timerDuration : ℚ) (i : ℕ) (ph : Phase) (ty : TrackType)
    (hty : requiredTrack ph = some ty) :
    ∀ (deltas : List ℚ) (s : EngineState), s.isPlaying = true →
      s.audio.currentAudioTrack = some (i, ty) →
      samePhaseRun slides timings totalDur timerDuration s deltas i ph = true →
      (runFrames slides timings totalDur timerDuration s deltas).startCount = 0 := by
  intro deltas
  induction deltas with
  | nil => intro s _ _ _; rfl
  | cons d rest ih =>
    intro s hp hmark hrun
    rw [samePhaseRun_cons] at hrun
    obtain ⟨⟨hlt, hph⟩, hrest⟩ := hrun
    have hstep : animateTick slides timings totalDur s d =
        ⟨{ s with time := s.time + d }, false, false⟩ := by
      cases ph with
      | reading =>
        obtain rfl : TrackType.question = ty := by
          simpa [requiredTrack] using hty
        obtain ⟨tm, hfa, hrd⟩ := phaseAt_reading timings (s.time + d) i hph
        exact animateTick_reading_skip slides timings totalDur s d i tm hp hlt hfa hrd hmark
      | thinking => simp [requiredTrack] at hty
      | revealing =>
        obtain rfl : TrackType.answer = ty := by
          simpa [requiredTrack] using hty
        obtain ⟨tm, hfa, h1, h2⟩ := phaseAt_revealing timings (s.time + d) i hph
        exact animateTick_revealing_skip slides timings totalDur s d i tm hp hlt hfa h1 h2 hmark
    rw [runFrames_cons_startCount, frameStep_started, hstep]
    simp only [if_false, Nat.zero_add, Bool.false_eq_true, ite_false]
    refine ih _ ?_ ?_ hrest
    · rw [frameStep_state_isPlaying, hstep]
      exact hp
    · rw [frameStep_state_audio, hstep]
      exact hmark

/-- During a run of frames that stays inside one slide and phase, at most one
start call is issued. -/
theorem run_startCount_le_one (slides : List SlideAudio) (timings : List SlideTiming)
    (totalDur timerDuration : ℚ) (i : ℕ) (ph : Phase) :
    ∀ (deltas : List ℚ) (s : EngineState), s.isPlaying = true →
      samePhaseRun slides timings totalDur timerDuration s deltas i ph = true →
      (runFrames slides timings totalDur timerDuration s deltas).startCount ≤ 1 := by
  intro deltas
  induction deltas with
  | nil => intro s _ _; exact Nat.zero_le 1
  | cons d rest ih =>
    intro s hp hrun
    rw [samePhaseRun_cons] at hrun
    obtain ⟨⟨hlt, hph⟩, hrest⟩ := hrun
    have hplay' : (frameStep slides timings totalDur timerDuration s d).state.isPlaying
        = true := by
      rw [frameStep_state_isPlaying]
      exact (animateTick_playing slides timings totalDur s d hp hlt).1
    rw [runFrames_cons_startCount, frameStep_started]
    cases hst : (animateTick slides timings totalDur s d).started with
    | false =>
      simp only [Bool.false_eq_true, ite_false, Nat.zero_add]
      exact ih _ hplay' hrest
    | true =>
      have hmark' : ∃ ty, requiredTrack ph = some ty ∧
          (animateTick slides timings totalDur s d).state.audio.currentAudioTrack =
            some (i, ty) := by
        cases ph with
        | reading =>
          obtain ⟨tm, hfa, hrd⟩ := phaseAt_reading timings (s.time + d) i hph
          by_cases hm : s.audio.currentAudioTrack = some (i, TrackType.question)
          · rw [animateTick_reading_skip slides timings totalDur s d i tm hp hlt hfa hrd hm]
              at hst
            simp at hst
          · refine ⟨TrackType.question, rfl, ?_⟩
            rw [animateTick_reading_attempt slides timings totalDur s d i tm hp hlt hfa
              hrd hm] at hst ⊢
            exact playVoiceTrack_snd_true_marker slides s.audio i TrackType.question _ hst
        | thinking =>
          obtain ⟨tm, hfa, h1, h2⟩ := phaseAt_thinking timings (s.time + d) i hph
          rw [animateTick_thinking_skip slides timings totalDur s d i tm hp hlt hfa h1 h2]
            at hst
          simp at hst
        | revealing =>
          obtain ⟨tm, hfa, h1, h2⟩ := phaseAt_revealing timings (s.time + d) i hph
          by_cases hm : s.audio.currentAudioTrack = some (i, TrackType.answer)
          · rw [animateTick_revealing_skip slides timings totalDur s d i tm hp hlt hfa
              h1 h2 hm] at hst
            simp at hst
          · refine ⟨TrackType.answer, rfl, ?_⟩
            rw [animateTick_revealing_attempt slides timings totalDur s d i tm hp hlt hfa
              h1 h2 hm] at hst ⊢
            exact playVoiceTrack_snd_true_marker slides s.audio i TrackType.answer _ hst
      obtain ⟨ty, hty, hmark2⟩ := hmark'
      have h0 := run_startCount_zero slides timings totalDur timerDuration i ph ty hty
        rest (frameStep slides timings totalDur timerDuration s d).state hplay'
        (by rw [frameStep_state_audio]; exact hmark2) hrest
      rw [h0]
      simp

/-- Claim C4: at every reachable point of a playback run at most one narration
source is sounding; a start call always follows a stop of the previously
sounding source and records the new identity in the single sounding track
marker; and across repeated frames during which the active slide and phase are
unchanged at most one start call is issued. -/
theorem c4_audio_exclusivity (slides : List SlideAudio) (timerDuration : ℚ)
    (s : EngineState) (hinv : AudioInv s.audio) :
    (∀ deltas : List ℚ,
      AudioInv (runFrames slides (buildTimings slides timerDuration)
        (totalDuration slides timerDuration) timerDuration s deltas).state.audio) ∧
    (∀ (deltas : List ℚ) (i : ℕ) (ph : Phase), s.isPlaying = true →
      samePhaseRun slides (buildTimings slides timerDuration)
        (totalDuration slides timerDuration) timerDuration s deltas i ph = true →
      (runFrames slides (buildTimings slides timerDuration)
        (totalDuration slides timerDuration) timerDuration s deltas).startCount ≤ 1) ∧
    (∀ (a : AudioState) (idx : ℕ) (ty : TrackType) (off : ℚ) (a' : AudioState),
      AudioInv a → playVoiceTrack slides a idx ty off = (a', true) →
      a'.currentAudioTrack = some (idx, ty) ∧ a'.liveVoices = [a.nextId] ∧
        (∀ id ∈ a.liveVoices, id ∉ a'.liveVoices)) := by
  refine ⟨?_, ?_, ?_⟩
  · intro deltas
    exact runFrames_inv slides (buildTimings slides timerDuration)
      (totalDuration slides timerDuration) timerDuration deltas s hinv
  · intro deltas i ph hp hrun
    exact run_startCount_le_one slides (buildTimings slides timerDuration)
      (totalDuration slides timerDuration) timerDuration i ph deltas s hp hrun
  · intro a idx ty off a' hainv hp
    obtain ⟨hlive, hold, _⟩ := playVoiceTrack_started_live slides a idx ty off a' hainv hp
    exact ⟨playVoiceTrack_started_marker slides a idx ty off a' hp, hlive, hold⟩

/-- A single slide set and a fresh engine used to witness the playback
theorems on concrete data. -/
def demoSlides : List SlideAudio := [⟨some 1, some 1⟩]

/-- The engine state at playback start: playhead 0, playing, empty audio
graph, lastTickTimeRef at its initial -1. -/
def demoEngine : EngineState := ⟨0, true, ⟨0, [], none, none⟩, -1⟩

/-- Witness for C4 applying the exclusivity theorem to a fresh engine. -/
theorem c4_audio_exclusivity_witness :
    AudioInv demoEngine.audio ∧
    ((∀ deltas : List ℚ,
      AudioInv (runFrames demoSlides (buildTimings demoSlides 5)
        (totalDuration demoSlides 5) 5 demoEngine deltas).state.audio) ∧
    (∀ (deltas : List ℚ) (i : ℕ) (ph : Phase), demoEngine.isPlaying = true →
      samePhaseRun demoSlides (buildTimings demoSlides 5)
        (totalDuration demoSlides 5) 5 demoEngine deltas i ph = true →
      (runFrames demoSlides (buildTimings demoSlides 5)
        (totalDuration demoSlides 5) 5 demoEngine deltas).startCount ≤ 1) ∧
    (∀ (a : AudioState) (idx : ℕ) (ty : TrackType) (off : ℚ) (a' : AudioState),
      AudioInv a → playVoiceTrack demoSlides a idx ty off = (a', true) →
      a'.currentAudioTrack = some (idx, ty) ∧ a'.liveVoices = [a.nextId] ∧
        (∀ id ∈ a.liveVoices, id ∉ a'.liveVoices))) :=
  ⟨⟨by simp [demoEngine], by simp [demoEngine]⟩,
    c4_audio_exclusivity demoSlides 5 demoEngine
      ⟨by simp [demoEngine], by simp [demoEngine]⟩⟩

/-- In the Revealing phase of a slide with no decoded answer buffer, every
frame repeats the playVoiceTrack attempt without starting anything and
without touching the audio graph state. -/
theorem run_missing_answer (slides : List SlideAudio) (timings : List SlideTiming)
    (totalDur timerDuration : ℚ) (i : ℕ)
    (hbuf : bufferDuration slides i TrackType.answer = none) :
    ∀ (deltas : List ℚ) (s : EngineState), s.isPlaying = true →
      s.audio.currentAudioTrack = some (i, TrackType.question) →
      samePhaseRun slides timings totalDur timerDuration s deltas i Phase.revealing
        = true →
      (runFrames slides timings totalDur timerDuration s deltas).attemptCount =
          deltas.length ∧
        (runFrames slides timings totalDur timerDuration s deltas).startCount = 0 ∧
        (runFrames slides timings totalDur timerDuration s deltas).state.audio =
          s.audio := by
  intro deltas
  induction deltas with
  | nil => intro s _ _ _; exact ⟨rfl, rfl, rfl⟩
  | cons d rest ih =>
    intro s hp hmark hrun
    rw [samePhaseRun_cons] at hrun
    obtain ⟨⟨hlt, hph⟩, hrest⟩ := hrun
    obtain ⟨tm, hfa, h1, h2⟩ := phaseAt_revealing timings (s.time + d) i hph
    have hne : s.audio.currentAudioTrack ≠ some (i, TrackType.answer) := by
      rw [hmark]; simp
    have hstep := animateTick_revealing_attempt slides timings totalDur s d i tm hp hlt
      hfa h1 h2 hne
    rw [playVoiceTrack_none slides s.audio i TrackType.answer _ hbuf] at hstep
    have hfr_audio : (frameStep slides timings totalDur timerDuration s d).state.audio
        = s.audio := by
      rw [frameStep_state_audio, hstep]
    have hfr_play : (frameStep slides timings totalDur timerDuration s d).state.isPlaying
        = true := by
      rw [frameStep_state_isPlaying, hstep]
      exact hp
    obtain ⟨ha, hs0, hau⟩ := ih (frameStep slides timings totalDur timerDuration s d).state
      hfr_play (by rw [hfr_audio]; exact hmark) hrest
    refine ⟨?_, ?_, ?_⟩
    · rw [runFrames_cons_attemptCount, frameStep_attempted, hstep, ha]
      simp [Nat.add_comm]
    · rw [runFrames_cons_startCount, frameStep_started, hstep, hs0]
      simp
    · rw [runFrames_cons_state, hau, hfr_audio]

/-- Claim C10: when the buffer for the required track is absent,
playVoiceTrack returns early without stopping the sounding source and without
updating the marker; in the Revealing phase of a slide with no decoded answer
buffer the question narration is never explicitly stopped, the marker keeps
naming the question track, and the start attempt repeats on every frame. -/
theorem c10_missing_answer_buffer (slides : List SlideAudio) (timerDuration : ℚ)
    (i : ℕ) (s : EngineState) (deltas : List ℚ)
    (hbuf : bufferDuration slides i TrackType.answer = none)
    (hp : s.isPlaying = true)
    (hmark : s.audio.currentAudioTrack = some (i, TrackType.question))
    (hrun : samePhaseRun slides (buildTimings slides timerDuration)
      (totalDuration slides timerDuration) timerDuration s deltas i Phase.revealing
        = true) :
    (∀ (a : AudioState) (off : ℚ),
      playVoiceTrack slides a i TrackType.answer off = (a, false)) ∧
    (runFrames slides (buildTimings slides timerDuration)
      (totalDuration slides timerDuration) timerDuration s deltas).attemptCount =
        deltas.length ∧
    (runFrames slides (buildTimings slides timerDuration)
      (totalDuration slides timerDuration) timerDuration s deltas).startCount = 0 ∧
    (runFrames slides (buildTimings slides timerDuration)
      (totalDuration slides timerDuration) timerDuration s deltas).state.audio =
      s.audio := by
  refine ⟨fun a off => playVoiceTrack_none slides a i TrackType.answer off hbuf, ?_⟩
  exact run_missing_answer slides (buildTimings slides timerDuration)
    (totalDuration slides timerDuration) timerDuration i hbuf deltas s hp hmark hrun

/-- The slide set used to witness C10: a ten second question narration and no
answer narration. -/
def missingAnswerSlides : List SlideAudio := [⟨some 10, none⟩]

/-- Engine state inside the Revealing phase of the missing answer slide: the
question source is still sounding and the marker names the question track. -/
def missingAnswerEngine : EngineState :=
  ⟨15400, true, ⟨1, [0], some 0, some (0, TrackType.question)⟩, 3⟩

/-- Witness for C10 at a concrete revealing frame of the missing answer
slide. -/
theorem c10_missing_answer_buffer_witness :
    (bufferDuration missingAnswerSlides 0 TrackType.answer = none ∧
      missingAnswerEngine.isPlaying = true ∧
      missingAnswerEngine.audio.currentAudioTrack = some (0, TrackType.question) ∧
      samePhaseRun missingAnswerSlides (buildTimings missingAnswerSlides 5)
        (totalDuration missingAnswerSlides 5) 5 missingAnswerEngine [200] 0
        Phase.revealing = true) ∧
    ((∀ (a : AudioState) (off : ℚ),
      playVoiceTrack missingAnswerSlides a 0 TrackType.answer off = (a, false)) ∧
    (runFrames missingAnswerSlides (buildTimings missingAnswerSlides 5)
      (totalDuration missingAnswerSlides 5) 5 missingAnswerEngine [200]).attemptCount =
        ([200] : List ℚ).length ∧
    (runFrames missingAnswerSlides (buildTimings missingAnswerSlides 5)
      (totalDuration missingAnswerSlides 5) 5 missingAnswerEngine [200]).startCount = 0 ∧
    (runFrames missingAnswerSlides (buildTimings missingAnswerSlides 5)
      (totalDuration missingAnswerSlides 5) 5 missingAnswerEngine [200]).state.audio =
      missingAnswerEngine.audio) :=
  ⟨⟨rfl, rfl, rfl, by
      norm_num [samePhaseRun, phaseAt, findActive, findActiveFrom, buildTimings,
        buildTimingsFrom, totalDuration, slideSpan, qDurMs, aDurMs, max_def,
        missingAnswerSlides, missingAnswerEngine, List.foldl]⟩,
    c10_missing_answer_buffer missingAnswerSlides 5 0 missingAnswerEngine [200] rfl rfl rfl
      (by
        norm_num [samePhaseRun, phaseAt, findActive, findActiveFrom, buildTimings,
          buildTimingsFrom, totalDuration, slideSpan, qDurMs, aDurMs, max_def,
          missingAnswerSlides, missingAnswerEngine, List.foldl])⟩

theorem tickCueStep_revealed (timerDuration : ℚ) (isPlaying : Bool)
    (timing : SlideTiming) (localTime : ℚ) (lastTick : ℤ)
    (hrev : timing.revealStart - timing.start ≤ localTime) :
    tickCueStep timerDuration isPlaying timing localTime lastTick =
      (lastTick, []) := by
  unfold tickCueStep
  dsimp only
  split
  · rename_i hcond
    exact absurd hcond.2.1.2 (not_lt.mpr hrev)
  · rfl

theorem drawSlideCues_reveal_fire (timerDuration : ℚ) (timing : SlideTiming)
    (localTime : ℚ) (lastTick : ℤ)
    (hrev : timing.revealStart - timing.start ≤ localTime)
    (hl : lastTick ≠ -99) :
    drawSlideCues timerDuration true timing localTime lastTick = (-99, [Cue.endCue]) := by
  unfold drawSlideCues
  rw [tickCueStep_revealed timerDuration true timing localTime lastTick hrev]
  unfold endCueStep
  rw [if_pos ⟨hrev, hl⟩]
  simp

theorem drawSlideCues_reveal_silent (timerDuration : ℚ) (isPlaying : Bool)
    (timing : SlideTiming) (localTime : ℚ)
    (hrev : timing.revealStart - timing.start ≤ localTime) :
    drawSlideCues timerDuration isPlaying timing localTime (-99) = (-99, []) := by
  unfold drawSlideCues
  rw [tickCueStep_revealed timerDuration isPlaying timing localTime (-99) hrev]
  unfold endCueStep
  rw [if_neg (fun h => h.2 rfl)]

theorem renderFrame_reveal_fire (slides : List SlideAudio)
    (timings : List SlideTiming) (timerDuration : ℚ) (t : ℚ) (i : ℕ)
    (tm : SlideTiming) (sl : SlideAudio) (lastTick : ℤ)
    (hfa : findActive timings t = some (i, tm))
    (hsl : slides.get? i = some sl)
    (h500 : TRANSITION_DURATION ≤ t - tm.start)
    (hrev : tm.revealStart ≤ t)
    (hl : lastTick ≠ -99) :
    renderFrame slides timings timerDuration true t lastTick =
      (-99, [Cue.endCue], [⟨i, t - tm.start, 1⟩]) := by
  have hget := (findActive_spec timings t i tm hfa).2.1
  have hnil : ¬ timings = [] := by
    intro h
    rw [h] at hget
    simp at hget
  unfold renderFrame
  rw [if_neg hnil]
  simp only [hfa]
  rw [if_neg (fun h => absurd h.1 (not_lt.mpr h500))]
  unfold drawSlideStateCues
  simp only [hsl, hget]
  rw [drawSlideCues_reveal_fire timerDuration tm (t - tm.start) lastTick
    (by linarith) hl]

theorem renderFrame_reveal_silent (slides : List SlideAudio)
    (timings : List SlideTiming) (timerDuration : ℚ) (t : ℚ) (i : ℕ)
    (tm : SlideTiming) (sl : SlideAudio)
    (hfa : findActive timings t = some (i, tm))
    (hsl : slides.get? i = some sl)
    (h500 : TRANSITION_DURATION ≤ t - tm.start)
    (hrev : tm.revealStart ≤ t) :
    renderFrame slides timings timerDuration true t (-99) =
      (-99, [], [⟨i, t - tm.start, 1⟩]) := by
  have hget := (findActive_spec timings t i tm hfa).2.1
  have hnil : ¬ timings = [] := by
    intro h
    rw [h] at hget
    simp at hget
  unfold renderFrame
  rw [if_neg hnil]
  simp only [hfa]
  rw [if_neg (fun h => absurd h.1 (not_lt.mpr h500))]
  unfold drawSlideStateCues
  simp only [hsl, hget]
  rw [drawSlideCues_reveal_silent timerDuration true tm (t - tm.start) (by linarith)]

/-- In the Revealing phase of a built timeline, the playhead is at least the
transition duration past the slide start. -/
theorem built_reveal_offset (slides : List SlideAudio) (timerDuration : ℚ)
    (hd : ∀ sl ∈ slides, 0 ≤ qDurMs sl) (htd : 0 ≤ timerDuration) (i : ℕ)
    (tm : SlideTiming)
    (hget : (buildTimings slides timerDuration).get? i = some tm) :
    tm.start + TRANSITION_DURATION ≤ tm.revealStart := by
  have hlen : i < slides.length := by
    by_contra hlt
    push_neg at hlt
    have : (buildTimings slides timerDuration).get? i = none := by
      rw [List.get?_eq_none, buildTimings_length]
      exact hlt
    rw [this] at hget
    exact Option.noConfusion hget
  obtain ⟨sl, hsl⟩ : ∃ sl, slides.get? i = some sl := by
    cases hg : slides.get? i with
    | none => rw [List.get?_eq_none] at hg; omega
    | some sl => exact ⟨sl, rfl⟩
  have hspec := buildTimingsFrom_get?_spec timerDuration slides 0 i sl tm hsl hget
  have hq : 0 ≤ qDurMs sl := hd sl (List.get?_mem hsl)
  have ht : 0 ≤ timerDuration * 1000 := by positivity
  have h1 := hspec.1
  have h2 := hspec.2.1
  rw [TRANSITION_DURATION]
  linarith

/-- In the Revealing phase of a slide, the lastTickTimeRef is untouched by
the animate callback. -/
theorem animateTick_revealing_lastTick (slides : List SlideAudio)
    (timings : List SlideTiming) (totalDur : ℚ) (s : EngineState) (delta : ℚ)
    (i : ℕ) (tm : SlideTiming) (hp : s.isPlaying = true)
    (hlt : s.time + delta < totalDur)
    (hfa : findActive timings (s.time + delta) = some (i, tm))
    (h1 : ¬ s.time + delta < tm.thinkingStart)
    (h2 : ¬ s.time + delta < tm.revealStart) :
    (animateTick slides timings totalDur s delta).state.lastTick = s.lastTick := by
  by_cases hm : s.audio.currentAudioTrack = some (i, TrackType.answer)
  · rw [animateTick_revealing_skip slides timings totalDur s delta i tm hp hlt hfa h1 h2 hm]
  · rw [animateTick_revealing_attempt slides timings totalDur s delta i tm hp hlt hfa
      h1 h2 hm]

theorem frameStep_cues (slides : List SlideAudio) (timings : List SlideTiming)
    (totalDur timerDuration : ℚ) (s : EngineState) (delta : ℚ) :
    (frameStep slides timings totalDur timerDuration s delta).cues =
      (renderFrame slides timings timerDuration
        (animateTick slides timings totalDur s delta).state.isPlaying
        (animateTick slides timings totalDur s delta).state.time
        (animateTick slides timings totalDur s delta).state.lastTick).2.1 := rfl

theorem frameStep_lastTick (slides : List SlideAudio) (timings : List SlideTiming)
    (totalDur timerDuration : ℚ) (s : EngineState) (delta : ℚ) :
    (frameStep slides timings totalDur timerDuration s delta).state.lastTick =
      (renderFrame slides timings timerDuration
        (animateTick slides timings totalDur s delta).state.isPlaying
        (animateTick slides timings totalDur s delta).state.time
        (animateTick slides timings totalDur s delta).state.lastTick).1 := rfl

/-- A run of frames that stays in the Revealing phase of slide i with the
sentinel already set emits no further end cue. -/
theorem run_reveal_silent (slides : List SlideAudio) (timerDuration : ℚ)
    (hd : ∀ sl ∈ slides, 0 ≤ qDurMs sl) (htd : 0 ≤ timerDuration) (i : ℕ) :
    ∀ (deltas : List ℚ) (s : EngineState), s.isPlaying = true → s.lastTick = -99 →
      samePhaseRun slides (buildTimings slides timerDuration)
        (totalDuration slides timerDuration) timerDuration s deltas i
        Phase.revealing = true →
      (runFrames slides (buildTimings slides timerDuration)
        (totalDuration slides timerDuration) timerDuration s deltas).cues.count
        Cue.endCue = 0 := by
  intro deltas
  induction deltas with
  | nil => intro s _ _ _; rfl
  | cons d rest ih =>
    intro s hp hl hrun
    rw [samePhaseRun_cons] at hrun
    obtain ⟨⟨hlt, hph⟩, hrest⟩ := hrun
    obtain ⟨tm, hfa, h1, h2⟩ := phaseAt_revealing (buildTimings slides timerDuration)
      (s.time + d) i hph
    have hget := (findActive_spec (buildTimings slides timerDuration) (s.time + d)
      i tm hfa).2.1
    obtain ⟨sl, hsl⟩ : ∃ sl, slides.get? i = some sl := by
      have hlen : i < slides.length := by
        have := (findActive_spec (buildTimings slides timerDuration) (s.time + d)
          i tm hfa).1
        rwa [buildTimings_length] at this
      cases hg : slides.get? i with
      | none => rw [List.get?_eq_none] at hg; omega
      | some sl => exact ⟨sl, rfl⟩
    have hofs := built_reveal_offset slides timerDuration hd htd i tm hget
    have hpl := animateTick_playing slides (buildTimings slides timerDuration)
      (totalDuration slides timerDuration) s d hp hlt
    have hltick := animateTick_revealing_lastTick slides
      (buildTimings slides timerDuration) (totalDuration slides timerDuration)
      s d i tm hp hlt hfa h1 h2
    have hrender := renderFrame_reveal_silent slides (buildTimings slides timerDuration)
      timerDuration (s.time + d) i tm sl hfa hsl (by push_neg at h2; linarith)
      (not_lt.mp h2)
    have hcues : (frameStep slides (buildTimings slides timerDuration)
        (totalDuration slides timerDuration) timerDuration s d).cues = [] := by
      rw [frameStep_cues, hpl.1, hpl.2, hltick, hl, hrender]
    have hlast : (frameStep slides (buildTimings slides timerDuration)
        (totalDuration slides timerDuration) timerDuration s d).state.lastTick = -99 := by
      rw [frameStep_lastTick, hpl.1, hpl.2, hltick, hl, hrender]
    have hfp : (frameStep slides (buildTimings slides timerDuration)
        (totalDuration slides timerDuration) timerDuration s d).state.isPlaying = true := by
      rw [frameStep_state_isPlaying]
      exact hpl.1
    rw [runFrames_cons_cues, hcues, List.nil_append]
    exact ih _ hfp hlast hrest

/-- Claim C5, amended: while the playhead remains inside one slide in its
Revealing phase, the end cue fires exactly once (on the first frame after
entry, when lastTickTimeRef is not yet the sentinel).  The claim as frozen
fails across the cross fade into the following slide, see the
counterexample. -/
theorem c5_amended (slides : List SlideAudio) (timerDuration : ℚ) (i : ℕ)
    (s : EngineState) (deltas : List ℚ)
    (hd : ∀ sl ∈ slides, 0 ≤ qDurMs sl) (htd : 0 ≤ timerDuration)
    (hp : s.isPlaying = true) (hl : s.lastTick ≠ -99) (hne : deltas ≠ [])
    (hrun : samePhaseRun slides (buildTimings slides timerDuration)
      (totalDuration slides timerDuration) timerDuration s deltas i
      Phase.revealing = true) :
    (runFrames slides (buildTimings slides timerDuration)
      (totalDuration slides timerDuration) timerDuration s deltas).cues.count
      Cue.endCue = 1 := by
  cases deltas with
  | nil => exact absurd rfl hne
  | cons d rest =>
    rw [samePhaseRun_cons] at hrun
    obtain ⟨⟨hlt, hph⟩, hrest⟩ := hrun
    obtain ⟨tm, hfa, h1, h2⟩ := phaseAt_revealing (buildTimings slides timerDuration)
      (s.time + d) i hph
    have hget := (findActive_spec (buildTimings slides timerDuration) (s.time + d)
      i tm hfa).2.1
    obtain ⟨sl, hsl⟩ : ∃ sl, slides.get? i = some sl := by
      have hlen : i < slides.length := by
        have := (findActive_spec (buildTimings slides timerDuration) (s.time + d)
          i tm hfa).1
        rwa [buildTimings_length] at this
      cases hg : slides.get? i with
      | none => rw [List.get?_eq_none] at hg; omega
      | some sl => exact ⟨sl, rfl⟩
    have hofs := built_reveal_offset slides timerDuration hd htd i tm hget
    have hpl := animateTick_playing slides (buildTimings slides timerDuration)
      (totalDuration slides timerDuration) s d hp hlt
    have hltick := animateTick_revealing_lastTick slides
      (buildTimings slides timerDuration) (totalDuration slides timerDuration)
      s d i tm hp hlt hfa h1 h2
    have hrender := renderFrame_reveal_fire slides (buildTimings slides timerDuration)
      timerDuration (s.time + d) i tm sl s.lastTick hfa hsl
      (by push_neg at h2; linarith) (not_lt.mp h2) hl
    have hcues : (frameStep slides (buildTimings slides timerDuration)
        (totalDuration slides timerDuration) timerDuration s d).cues = [Cue.endCue] := by
      rw [frameStep_cues, hpl.1, hpl.2, hltick, hrender]
    have hlast : (frameStep slides (buildTimings slides timerDuration)
        (totalDuration slides timerDuration) timerDuration s d).state.lastTick = -99 := by
      rw [frameStep_lastTick, hpl.1, hpl.2, hltick, hrender]
    have hfp : (frameStep slides (buildTimings slides timerDuration)
        (totalDuration slides timerDuration) timerDuration s d).state.isPlaying = true := by
      rw [frameStep_state_isPlaying]
      exact hpl.1
    rw [runFrames_cons_cues, hcues, List.count_append]
    rw [run_reveal_silent slides timerDuration hd htd i rest _ hfp hlast hrest]
    rfl

/-- Engine state just after entering the Revealing phase of the demo slide,
with lastTickTimeRef still holding the final tick value. -/
def revealEngine : EngineState :=
  ⟨6600, true, ⟨2, [1], some 1, some (0, TrackType.answer)⟩, 5⟩

/-- Witness for the amended C5 at one concrete revealing frame. -/
theorem c5_amended_witness :
    ((∀ sl ∈ demoSlides, 0 ≤ qDurMs sl) ∧ (0 : ℚ) ≤ 5 ∧
      revealEngine.isPlaying = true ∧ revealEngine.lastTick ≠ -99 ∧
      ([100] : List ℚ) ≠ [] ∧
      samePhaseRun demoSlides (buildTimings demoSlides 5)
        (totalDuration demoSlides 5) 5 revealEngine [100] 0 Phase.revealing = true) ∧
    (runFrames demoSlides (buildTimings demoSlides 5) (totalDuration demoSlides 5) 5
      revealEngine [100]).cues.count Cue.endCue = 1 :=
  ⟨⟨by intro sl hsl; simp [demoSlides] at hsl; subst hsl; norm_num [qDurMs],
    by norm_num, rfl, by decide, by simp,
    by norm_num [samePhaseRun, phaseAt, findActive, findActiveFrom, buildTimings,
      buildTimingsFrom, totalDuration, slideSpan, qDurMs, aDurMs, max_def,
      demoSlides, revealEngine, List.foldl]⟩,
    c5_amended demoSlides 5 0 revealEngine [100]
      (by intro sl hsl; simp [demoSlides] at hsl; subst hsl; norm_num [qDurMs])
      (by norm_num) rfl (by decide) (by simp)
      (by norm_num [samePhaseRun, phaseAt, findActive, findActiveFrom, buildTimings,
        buildTimingsFrom, totalDuration, slideSpan, qDurMs, aDurMs, max_def,
        demoSlides, revealEngine, List.foldl])⟩

/-- Two slides with one second narrations used by the C5 counterexample. -/
def cexSlides : List SlideAudio := [⟨some 1, some 1⟩, ⟨some 1, some 1⟩]

set_option maxHeartbeats 3200000 in
/-- Claim C5 counterexample: with two slides and thinking time 5 s, a forward
traversal whose frames fall at 500 ms (Reading of slide 0), 6800 ms
(Revealing of slide 0) and 8700 ms (Reading of slide 1, inside the cross fade
window) enters the Revealing phase exactly once yet fires the end cue twice:
once inside the reveal and once more when the cross fade redraws the revealed
slide 0 after lastTickTimeRef was reset on entering slide 1. -/
theorem c5_counterexample :
    phaseAt (buildTimings cexSlides 5) 500 = some (0, Phase.reading) ∧
    phaseAt (buildTimings cexSlides 5) 6800 = some (0, Phase.revealing) ∧
    phaseAt (buildTimings cexSlides 5) 8700 = some (1, Phase.reading) ∧
    (runFrames cexSlides (buildTimings cexSlides 5) (totalDuration cexSlides 5) 5
      demoEngine [500, 6300, 1900]).cues.count Cue.endCue = 2 := by
  have htms : buildTimings cexSlides 5 =
      [⟨0, 1000, 1500, 6500, 1000, 8500⟩, ⟨8500, 1000, 10000, 15000, 1000, 17000⟩] := by
    norm_num [buildTimings, buildTimingsFrom, qDurMs, aDurMs, max_def, cexSlides]
  have htot : totalDuration cexSlides 5 = 17000 := by
    norm_num [totalDuration, slideSpan, qDurMs, aDurMs, max_def, cexSlides, List.foldl]
  rw [htms, htot]
  have e0 : (([⟨0, 1000, 1500, 6500, 1000, 8500⟩,
      ⟨8500, 1000, 10000, 15000, 1000, 17000⟩] : List SlideTiming) = []) = False := by
    simp
  have e1 : ((none : Option (ℕ × TrackType)) = some (0, TrackType.question)) = False := by
    simp
  have e2 : ((some (0, TrackType.question) : Option (ℕ × TrackType)) =
      some (0, TrackType.answer)) = False := by simp
  have e3 : ((some (0, TrackType.answer) : Option (ℕ × TrackType)) =
      some (1, TrackType.question)) = False := by simp
  have hf1 : frameStep cexSlides
      [⟨0, 1000, 1500, 6500, 1000, 8500⟩, ⟨8500, 1000, 10000, 15000, 1000, 17000⟩]
      17000 5 demoEngine 500 =
      ⟨⟨500, true, ⟨1, [0], some 0, some (0, TrackType.question)⟩, -1⟩, true, true,
        [], [⟨0, 500, 1⟩]⟩ := by
    norm_num [frameStep, animateTick, renderFrame, drawSlideStateCues,
      drawSlideCues, tickCueStep, endCueStep, playVoiceTrack, stopVoice,
      bufferDuration, findActive, findActiveFrom, cexSlides, demoEngine,
      TRANSITION_DURATION, transitionAlpha, List.erase, ne_eq, reduceCtorEq,
      Option.some.injEq, Prod.mk.injEq, e0, e1, e2, e3]
  have hf2 : frameStep cexSlides
      [⟨0, 1000, 1500, 6500, 1000, 8500⟩, ⟨8500, 1000, 10000, 15000, 1000, 17000⟩]
      17000 5 ⟨500, true, ⟨1, [0], some 0, some (0, TrackType.question)⟩, -1⟩ 6300 =
      ⟨⟨6800, true, ⟨2, [1], some 1, some (0, TrackType.answer)⟩, -99⟩, true, true,
        [Cue.endCue], [⟨0, 6800, 1⟩]⟩ := by
    norm_num [frameStep, animateTick, renderFrame, drawSlideStateCues,
      drawSlideCues, tickCueStep, endCueStep, playVoiceTrack, stopVoice,
      bufferDuration, findActive, findActiveFrom, cexSlides,
      TRANSITION_DURATION, transitionAlpha, List.erase, ne_eq, reduceCtorEq,
      Option.some.injEq, Prod.mk.injEq, e0, e1, e2, e3]
  have hf3 : frameStep cexSlides
      [⟨0, 1000, 1500, 6500, 1000, 8500⟩, ⟨8500, 1000, 10000, 15000, 1000, 17000⟩]
      17000 5 ⟨6800, true, ⟨2, [1], some 1, some (0, TrackType.answer)⟩, -99⟩ 1900 =
      ⟨⟨8700, true, ⟨3, [2], some 2, some (1, TrackType.question)⟩, -99⟩, true, true,
        [Cue.endCue], [⟨0, 8700, 1⟩, ⟨1, 200, 2 / 5⟩]⟩ := by
    norm_num [frameStep, animateTick, renderFrame, drawSlideStateCues,
      drawSlideCues, tickCueStep, endCueStep, playVoiceTrack, stopVoice,
      bufferDuration, findActive, findActiveFrom, cexSlides,
      TRANSITION_DURATION, transitionAlpha, List.erase, ne_eq, reduceCtorEq,
      Option.some.injEq, Prod.mk.injEq, e0, e1, e2, e3]
  refine ⟨?_, ?_, ?_, ?_⟩
  · norm_num [phaseAt, findActive, findActiveFrom]
  · norm_num [phaseAt, findActive, findActiveFrom]
  · norm_num [phaseAt, findActive, findActiveFrom]
  · simp only [runFrames_cons_cues, hf1, hf2, hf3]
    norm_num [runFrames, List.count_append, List.count_cons, List.count_nil]

/-- Claim C8: inside the first TRANSITION_DURATION of a non first slide the
frame draws the previous slide at alpha 1 and the active slide on top at
alpha localTime / TRANSITION_DURATION; afterwards, and on the first slide
always, the active slide is drawn alone at alpha 1.  The transition alpha is
monotone, 0 at entry, 1 at 500 ms, and stays in [0, 1) inside the window. -/
theorem c8_crossfade (slides : List SlideAudio) (timerDuration : ℚ) (ip : Bool)
    (lt : ℤ) (t : ℚ) (i : ℕ) (tm : SlideTiming)
    (hfa : findActive (buildTimings slides timerDuration) t = some (i, tm)) :
    ((0 < i) → t - tm.start < TRANSITION_DURATION →
      ∃ ptm, (buildTimings slides timerDuration).get? (i - 1) = some ptm ∧
        (renderFrame slides (buildTimings slides timerDuration) timerDuration
          ip t lt).2.2 =
          [⟨i - 1, t - ptm.start, 1⟩, ⟨i, t - tm.start, transitionAlpha (t - tm.start)⟩]) ∧
    (TRANSITION_DURATION ≤ t - tm.start →
      (renderFrame slides (buildTimings slides timerDuration) timerDuration
        ip t lt).2.2 = [⟨i, t - tm.start, 1⟩]) ∧
    (i = 0 →
      (renderFrame slides (buildTimings slides timerDuration) timerDuration
        ip t lt).2.2 = [⟨0, t - tm.start, 1⟩]) ∧
    (∀ u v : ℚ, u ≤ v → transitionAlpha u ≤ transitionAlpha v) ∧
    transitionAlpha 0 = 0 ∧ transitionAlpha TRANSITION_DURATION = 1 ∧
    (∀ u : ℚ, 0 ≤ u → u < TRANSITION_DURATION →
      0 ≤ transitionAlpha u ∧ transitionAlpha u < 1) := by
  obtain ⟨hilen, hgeti, _, _⟩ := findActive_spec (buildTimings slides timerDuration)
    t i tm hfa
  have hnil : ¬ (buildTimings slides timerDuration) = [] := by
    intro h
    rw [h] at hgeti
    simp at hgeti
  have hslen : i < slides.length := by rwa [buildTimings_length] at hilen
  obtain ⟨sl, hsl⟩ : ∃ sl, slides.get? i = some sl := by
    cases hg : slides.get? i with
    | none => rw [List.get?_eq_none] at hg; omega
    | some sl => exact ⟨sl, rfl⟩
  refine ⟨?_, ?_, ?_, ?_, ?_, ?_, ?_⟩
  · intro hpos hlt500
    obtain ⟨ptm, hptm⟩ : ∃ ptm,
        (buildTimings slides timerDuration).get? (i - 1) = some ptm := by
      cases hg : (buildTimings slides timerDuration).get? (i - 1) with
      | none => rw [List.get?_eq_none] at hg; omega
      | some ptm => exact ⟨ptm, rfl⟩
    obtain ⟨psl, hpsl⟩ : ∃ psl, slides.get? (i - 1) = some psl := by
      cases hg : slides.get? (i - 1) with
      | none => rw [List.get?_eq_none] at hg; omega
      | some psl => exact ⟨psl, rfl⟩
    refine ⟨ptm, hptm, ?_⟩
    unfold renderFrame
    rw [if_neg hnil]
    simp only [hfa]
    rw [if_pos ⟨hlt500, hpos⟩]
    simp only [hptm]
    unfold drawSlideStateCues
    simp only [hpsl, hptm, hsl, hgeti]
    rfl
  · intro h500
    unfold renderFrame
    rw [if_neg hnil]
    simp only [hfa]
    rw [if_neg (fun h => absurd h.1 (not_lt.mpr h500))]
    unfold drawSlideStateCues
    simp only [hsl, hgeti]
  · intro h0
    subst h0
    unfold renderFrame
    rw [if_neg hnil]
    simp only [hfa]
    rw [if_neg (fun h => lt_irrefl 0 h.2)]
    unfold drawSlideStateCues
    simp only [hsl, hgeti]
  · intro u v huv
    unfold transitionAlpha TRANSITION_DURATION
    linarith
  · unfold transitionAlpha
    exact zero_div _
  · unfold transitionAlpha TRANSITION_DURATION
    norm_num
  · intro u hu hlt
    rw [TRANSITION_DURATION] at hlt
    unfold transitionAlpha TRANSITION_DURATION
    constructor
    · positivity
    · rw [div_lt_one (by norm_num)]
      exact hlt

/-- The timing entry of the second counterexample slide. -/
def tm1cex : SlideTiming := ⟨8500, 1000, 10000, 15000, 1000, 17000⟩

/-- Witness for C8 at playhead 8700, inside the cross fade into slide 1. -/
theorem c8_crossfade_witness :
    findActive (buildTimings cexSlides 5) 8700 = some (1, tm1cex) ∧
    (((0 < 1) → (8700 : ℚ) - tm1cex.start < TRANSITION_DURATION →
      ∃ ptm, (buildTimings cexSlides 5).get? (1 - 1) = some ptm ∧
        (renderFrame cexSlides (buildTimings cexSlides 5) 5 true 8700 (-1)).2.2 =
          [⟨1 - 1, 8700 - ptm.start, 1⟩,
            ⟨1, 8700 - tm1cex.start, transitionAlpha (8700 - tm1cex.start)⟩]) ∧
    (TRANSITION_DURATION ≤ 8700 - tm1cex.start →
      (renderFrame cexSlides (buildTimings cexSlides 5) 5 true 8700 (-1)).2.2 =
        [⟨1, 8700 - tm1cex.start, 1⟩]) ∧
    ((1 : ℕ) = 0 →
      (renderFrame cexSlides (buildTimings cexSlides 5) 5 true 8700 (-1)).2.2 =
        [⟨0, 8700 - tm1cex.start, 1⟩]) ∧
    (∀ u v : ℚ, u ≤ v → transitionAlpha u ≤ transitionAlpha v) ∧
    transitionAlpha 0 = 0 ∧ transitionAlpha TRANSITION_DURATION = 1 ∧
    (∀ u : ℚ, 0 ≤ u → u < TRANSITION_DURATION →
      0 ≤ transitionAlpha u ∧ transitionAlpha u < 1)) :=
  ⟨by norm_num [findActive, findActiveFrom, buildTimings, buildTimingsFrom, qDurMs,
      aDurMs, max_def, cexSlides, tm1cex],
    c8_crossfade cexSlides 5 true (-1) 8700 1 tm1cex
      (by norm_num [findActive, findActiveFrom, buildTimings, buildTimingsFrom, qDurMs,
        aDurMs, max_def, cexSlides, tm1cex])⟩

end AutoQuizVideo
